import Mathlib

/-!
Shallow embedding of the Kaleidoscope-Qukeys disambiguation engine.

The repository holds two revisions of the engine:
  * `V1` models `src/src/Kaleidoscope/Qukeys.cpp`;
  * `V2` models `src/unnamed/part_001` (a later revision of the same file).
Pure data is embedded directly; the mutable statics (`key_queue_`,
`key_queue_length_`, the qukey registry / state store) become an explicit
state record threaded through each function.  External collaborators
(`Layer.lookup`, `Layer.lookupActiveLayer`, `millis`, the HID report
primitives) are parameters; the calls to `handleKeyswitchEvent` and
`hid::sendKeyboardReport` are recorded in an output trace.
-/

/-- The `key_state` bitfield of a keyswitch event, as a record of its three
flags (`IS_PRESSED`, `WAS_PRESSED`, `INJECTED`).  The bit values themselves
live in a header that is not part of this repository; only the flags are
observable. -/
structure KeyswitchState where
  is_pressed : Bool
  was_pressed : Bool
  injected : Bool
deriving DecidableEq

/-- `keyIsPressed(key_state)`. -/
def keyIsPressed (k : KeyswitchState) : Bool := k.is_pressed

/-- `keyWasPressed(key_state)`. -/
def keyWasPressed (k : KeyswitchState) : Bool := k.was_pressed

/-- `keyToggledOn(key_state)`: pressed now and not pressed before. -/
def keyToggledOn (k : KeyswitchState) : Bool := k.is_pressed && !k.was_pressed

/-- `keyToggledOff(key_state)`: pressed before and not pressed now. -/
def keyToggledOff (k : KeyswitchState) : Bool := !k.is_pressed && k.was_pressed

/-- `IS_PRESSED | WAS_PRESSED`: the pressed-and-held keyswitch condition. -/
def pressedHeld : KeyswitchState := ⟨true, true, false⟩

/-- `WAS_PRESSED`: the press-plus-release (just toggled off) condition. -/
def wasPressedOnly : KeyswitchState := ⟨false, true, false⟩

/-- `IS_PRESSED | INJECTED`: the condition of the synthetic press replayed
during resolution. -/
def injectedPress : KeyswitchState := ⟨true, false, true⟩

/-- `IS_PRESSED | WAS_PRESSED | INJECTED`: the condition of the second
synthetic event of `V2.flushKey`. -/
def injectedHeld : KeyswitchState := ⟨true, true, true⟩

/-- One slot of `key_queue_`: a key address and its timeout deadline
(`flush_time = millis() + time_limit_`). -/
structure QueueItem where
  addr : Nat
  flush_time : Nat
deriving DecidableEq

/-- Modelled from the spec: the sentinel address meaning "unknown/none"
(`QUKEY_UNKNOWN_ADDR`, defined in the missing header; only compared for
equality). -/
def QUKEY_UNKNOWN_ADDR : Nat := 255

/-- Modelled from the spec: the fixed queue capacity (`QUKEYS_QUEUE_MAX`,
defined in the missing header; the spec fixes only that it is a small
constant). -/
def QUKEYS_QUEUE_MAX : Nat := 8

/-- Modelled from the spec: the wildcard layer (`QUKEY_ALL_LAYERS`); only
compared for equality against `int8_t` layers. -/
def QUKEY_ALL_LAYERS : Int := -1

/-- `Key_NoKey`, the code returned to suppress an event. -/
def Key_NoKey : Nat := 0

/-- Observable external calls made during a single-entry resolution:
`handleKeyswitchEvent(keycode, addr, state)` and
`hid::sendKeyboardReport()`. -/
inductive Emit where
  | keyEvent (keycode : Nat) (addr : Nat) (state : KeyswitchState)
  | sendReport
deriving DecidableEq

/-- Whether an external call is a toggled-off (release) key event; used to
state which keyswitch conditions the resolution routine ever injects. -/
def emitIsRelease : Emit → Bool
  | Emit.keyEvent _ _ st => keyToggledOff st
  | Emit.sendReport => false

namespace V1

/-!  Model of `src/src/Kaleidoscope/Qukeys.cpp`.  In this revision the
resolution state lives inside each registry entry (`Qukey::state`). -/

/-- A registry entry of the Qukeys.cpp revision, with its mutable `state`
field. -/
structure Qukey where
  layer : Int
  addr : Nat
  alt_keycode : Nat
  state : Nat
deriving DecidableEq

/-- Modelled from the spec: the three `QUKEY_STATE_*` constants of the
missing header; only compared for equality. -/
def QUKEY_STATE_UNDETERMINED : Nat := 0

/-- Resolved-primary state value. -/
def QUKEY_STATE_PRIMARY : Nat := 1

/-- Resolved-alternate state value. -/
def QUKEY_STATE_ALTERNATE : Nat := 2

/-- External collaborators and configuration, fixed during one engine
operation: `Layer.lookupActiveLayer` (by address), `Layer.lookup` (by
address), `time_limit_` and `active_`. -/
structure Ctx where
  activeLayer : Nat → Int
  layerLookup : Nat → Nat
  time_limit : Nat
  active : Bool

/-- The mutable statics of the Qukeys.cpp revision: the registry (whose
entries carry their resolution state) and the pending queue.  The backing
array `key_queue_` is a total function so that the one-past-the-end read of
the shift loop stays expressible; only indices below `key_queue_length`
are live. -/
structure State where
  qukeys : List Qukey
  key_queue : Nat → QueueItem
  key_queue_length : Nat

/-- Replace the `i`-th registry entry's `state` field (the assignment
`qukeys_[qukey_index].state = ...`). -/
def setState (qs : List Qukey) (i : Nat) (st : Nat) : List Qukey :=
  match qs, i with
  | [], _ => []
  | q :: rest, 0 => { q with state := st } :: rest
  | q :: rest, n + 1 => q :: setState rest n st

/-- Read the `i`-th registry entry (`qukeys_[qukey_index]`); the default is
never reached because indices come from `lookupQukey`. -/
def getQukey (qs : List Qukey) (i : Nat) : Qukey :=
  qs.getD i ⟨0, 0, 0, 0⟩

/-- `Qukeys::lookupQukey`: first registry index whose address matches and
whose layer is the wildcard or the active layer; `QUKEY_NOT_FOUND` is
`none`. -/
def lookupQukey (c : Ctx) (s : State) (key_addr : Nat) : Option Nat :=
  if key_addr = QUKEY_UNKNOWN_ADDR then none
  else
    s.qukeys.findIdx? fun q =>
      q.addr == key_addr &&
        (q.layer == QUKEY_ALL_LAYERS || q.layer == c.activeLayer key_addr)

/-- The record of one `flushKey` call: the head entry it resolved, the two
arguments it was given, the keycode it computed, and the external calls it
performed. -/
structure FlushTrace where
  entry : QueueItem
  qukey_state : Nat
  keyswitch_state : KeyswitchState
  keycode : Nat
  emits : List Emit
deriving DecidableEq

/-- `Qukeys::flushKey` of Qukeys.cpp: resolve the head of the queue with
role `qukey_state` under logical keyswitch condition `keyswitch_state`.
Writes the resolution state, computes the keycode, replays an injected
press, sends the intermediate report (the report save/restore acts only on
external HID state), shifts the queue down by one, and finally resets the
qukey's state when the keyswitch condition says the key was released. -/
def flushKey (c : Ctx) (s : State) (qukey_state : Nat)
    (keyswitch_state : KeyswitchState) : State × FlushTrace :=
  let head := s.key_queue 0
  let qukey_index := lookupQukey c s head.addr
  let stateAndCode : List Qukey × Nat :=
    match qukey_index with
    | none => (s.qukeys, c.layerLookup head.addr)
    | some i =>
      let qs1 := setState s.qukeys i qukey_state
      if qukey_state = QUKEY_STATE_PRIMARY then (qs1, c.layerLookup head.addr)
      else if qukey_state = QUKEY_STATE_ALTERNATE then
        (qs1, (getQukey s.qukeys i).alt_keycode)
      else (qs1, Key_NoKey)
  let keycode := stateAndCode.2
  let emits : List Emit :=
    [Emit.keyEvent keycode head.addr injectedPress, Emit.sendReport]
  -- the shift loop `key_queue_[i] = key_queue_[i+1]` for i < length
  let kq1 : Nat → QueueItem := fun i =>
    if i < s.key_queue_length then s.key_queue (i + 1) else s.key_queue i
  let qukeys2 :=
    match qukey_index with
    | some i =>
      if keyswitch_state.is_pressed = false then
        setState stateAndCode.1 i QUKEY_STATE_UNDETERMINED
      else stateAndCode.1
    | none => stateAndCode.1
  (⟨qukeys2, kq1, s.key_queue_length - 1⟩,
   ⟨head, qukey_state, keyswitch_state, keycode, emits⟩)

/-- `Qukeys::enqueue`: evict the head (as primary, pressed-and-held) when
the queue is full, then append the new entry with deadline
`millis() + time_limit_`. -/
def enqueue (c : Ctx) (s : State) (key_addr : Nat) (now : Nat) :
    State × List FlushTrace :=
  let evicted : State × List FlushTrace :=
    if s.key_queue_length = QUKEYS_QUEUE_MAX then
      let r := flushKey c s QUKEY_STATE_PRIMARY pressedHeld
      (r.1, [r.2])
    else (s, [])
  let s1 := evicted.1
  (⟨s1.qukeys,
    Function.update s1.key_queue s1.key_queue_length
      ⟨key_addr, now + c.time_limit⟩,
    s1.key_queue_length + 1⟩,
   evicted.2)

/-- `Qukeys::searchQueue`: position of the first queue entry with the given
address, `none` when absent. -/
def searchQueue (s : State) (key_addr : Nat) : Option Nat :=
  (List.range s.key_queue_length).find? fun i =>
    (s.key_queue i).addr == key_addr

/-- The loop of `Qukeys::flushQueue(int8_t)`: flush `n` entries as
alternate-role, pressed-and-held, stopping early on an empty queue. -/
def flushQueueLoop (c : Ctx) : Nat → State → State × List FlushTrace
  | 0, s => (s, [])
  | n + 1, s =>
    if s.key_queue_length = 0 then (s, [])
    else
      let r := flushKey c s QUKEY_STATE_ALTERNATE pressedHeld
      let rest := flushQueueLoop c n r.1
      (rest.1, r.2 :: rest.2)

/-- `Qukeys::flushQueue(int8_t index)`: flush everything ahead of `index`
as alternate, then the entry at `index` as primary with the press-plus-
release condition; a `QUKEY_NOT_FOUND` index is a no-op. -/
def flushQueue (c : Ctx) (s : State) (index : Option Nat) :
    State × List FlushTrace :=
  match index with
  | none => (s, [])
  | some idx =>
    let front := flushQueueLoop c idx s
    let last := flushKey c front.1 QUKEY_STATE_PRIMARY wasPressedOnly
    (last.1, front.2 ++ [last.2])

/-- The body of `Qukeys::preReportHook` of Qukeys.cpp: a `for` loop whose
index `i` advances while `flushKey` keeps shortening the queue; it flushes
the head as alternate while `current_time > key_queue_[i].flush_time` and
breaks otherwise.  `fuel` starts at the initial queue length, which the
loop can never exhaust (each iteration raises `i` and lowers the length,
so the guard `i < key_queue_length_` fails within `length` steps). -/
def preReportLoop (c : Ctx) (now : Nat) :
    Nat → Nat → State → State × List FlushTrace
  | 0, _, s => (s, [])
  | fuel + 1, i, s =>
    if i < s.key_queue_length then
      if now > (s.key_queue i).flush_time then
        let r := flushKey c s QUKEY_STATE_ALTERNATE pressedHeld
        let rest := preReportLoop c now fuel (i + 1) r.1
        (rest.1, r.2 :: rest.2)
      else (s, [])
    else (s, [])

/-- `Qukeys::preReportHook` of Qukeys.cpp. -/
def preReportHook (c : Ctx) (s : State) (now : Nat) :
    State × List FlushTrace :=
  preReportLoop c now s.key_queue_length 0 s

/-- The tail of `Qukeys::keyScanHook` after the toggled-on block: the
toggled-off, still-held-non-qukey and still-held-qukey branches.
`qukey_index` was computed before any enqueue, exactly as in the source;
`tr` carries the resolutions already performed by an enqueue. -/
def keyScanCont (c : Ctx) (s : State) (mapped_key key_addr : Nat)
    (key_state : KeyswitchState) (qukey_index : Option Nat)
    (tr : List FlushTrace) : State × Nat × List FlushTrace :=
  let queue_index := searchQueue s key_addr
  if keyToggledOff key_state then
    match queue_index with
    | none =>
      match qukey_index with
      | some i =>
        (⟨setState s.qukeys i QUKEY_STATE_UNDETERMINED, s.key_queue,
          s.key_queue_length⟩, mapped_key, tr)
      | none => (s, mapped_key, tr)
    | some qi =>
      let r := flushQueue c s (some qi)
      (r.1, mapped_key, tr ++ r.2)
  else
    match qukey_index with
    | none =>
      match queue_index with
      | none => (s, mapped_key, tr)
      | some _ => (s, Key_NoKey, tr)
    | some i =>
      if (getQukey s.qukeys i).state = QUKEY_STATE_PRIMARY then
        (s, mapped_key, tr)
      else if (getQukey s.qukeys i).state = QUKEY_STATE_ALTERNATE then
        (s, (getQukey s.qukeys i).alt_keycode, tr)
      else (s, Key_NoKey, tr)

/-- `Qukeys::keyScanHook` of Qukeys.cpp.  The returned `Nat` is the key
code handed to the next plugin (`Key_NoKey` suppresses the event); row and
column are already packed into `key_addr` as in `addr::addr`. -/
def keyScanHook (c : Ctx) (s : State) (mapped_key key_addr : Nat)
    (key_state : KeyswitchState) (now : Nat) :
    State × Nat × List FlushTrace :=
  if !c.active then (s, mapped_key, [])
  else if key_state.injected then (s, mapped_key, [])
  else if !keyIsPressed key_state && !keyWasPressed key_state then
    (s, mapped_key, [])
  else
    let qukey_index := lookupQukey c s key_addr
    if keyToggledOn key_state then
      if s.key_queue_length ≠ 0 then
        let r := enqueue c s key_addr now
        keyScanCont c r.1 mapped_key key_addr key_state qukey_index r.2
      else if qukey_index = none then (s, mapped_key, [])
      else
        let r := enqueue c s key_addr now
        keyScanCont c r.1 mapped_key key_addr key_state qukey_index r.2
    else keyScanCont c s mapped_key key_addr key_state qukey_index []

end V1

namespace V2

/-!  Model of `src/unnamed/part_001`, the later revision.  Here the
registry is immutable and the resolution state lives in a separate
per-address store (`qukey_state_`, written through `setQukeyState` /
`getQukeyState`); the revision also masks queued keys in the hardware
scanner. -/

/-- A registry entry of the part_001 revision (no state field; the
constructor sets only layer, address and alternate code). -/
structure Qukey where
  layer : Int
  addr : Nat
  alt_keycode : Nat
deriving DecidableEq

/-- Modelled from the spec: the boolean resolution roles of the missing
header, as used by `flushKey(bool qukey_state, ...)`; `QUKEY_STATE_PRIMARY`
and `QUKEY_STATE_ALTERNATE` are the two values of the per-address store. -/
def QUKEY_STATE_PRIMARY : Bool := false

/-- The alternate role value. -/
def QUKEY_STATE_ALTERNATE : Bool := true

/-- External collaborators and configuration of the part_001 revision; the
registry (`qukeys` / `qukeys_count`) is configured once and never written
by this translation unit, so it lives here rather than in the state. -/
structure Ctx where
  qukeys : List Qukey
  activeLayer : Nat → Int
  layerLookup : Nat → Nat
  time_limit : Nat
  active : Bool

/-- The mutable statics of the part_001 revision: the pending queue, the
per-address resolution store `qukey_state_`, and the hardware mask bits
(`KeyboardHardware.maskKey` / `unMaskKey`). -/
structure State where
  key_queue : Nat → QueueItem
  key_queue_length : Nat
  qukey_state : Nat → Bool
  masked : Nat → Bool

/-- Read the `i`-th registry entry (`qukeys[qukey_index]`); the default is
never reached because indices come from `lookupQukey`. -/
def getQukey (qs : List Qukey) (i : Nat) : Qukey :=
  qs.getD i ⟨0, 0, 0⟩

/-- `Qukeys::lookupQukey` of part_001 (identical logic to the other
revision, over the immutable registry). -/
def lookupQukey (c : Ctx) (key_addr : Nat) : Option Nat :=
  if key_addr = QUKEY_UNKNOWN_ADDR then none
  else
    c.qukeys.findIdx? fun q =>
      q.addr == key_addr &&
        (q.layer == QUKEY_ALL_LAYERS || q.layer == c.activeLayer key_addr)

/-- Modelled from the spec: `getQukeyState(addr)`, declared in the missing
header; reads the per-address resolution store. -/
def getQukeyState (s : State) (key_addr : Nat) : Bool :=
  s.qukey_state key_addr

/-- The record of one part_001 `flushKey` call. -/
structure FlushTrace where
  entry : QueueItem
  qukey_state : Bool
  keyswitch_state : KeyswitchState
  keycode : Nat
  emits : List Emit
deriving DecidableEq

/-- `Qukeys::flushKey` of part_001: unmask the head, write its resolution
state when it is a registered qukey, compute the keycode
(`qukey_state == QUKEY_STATE_ALTERNATE && qukey_index != QUKEY_NOT_FOUND`
selects the alternate code), replay an injected press, send the
intermediate report, and — after restoring the shielded report — replay an
injected pressed-and-held event whenever the keyswitch condition is not a
toggle-on; finally shift the queue down by one. -/
def flushKey (c : Ctx) (s : State) (qukey_state : Bool)
    (keyswitch_state : KeyswitchState) : State × FlushTrace :=
  let head := s.key_queue 0
  let masked1 := Function.update s.masked head.addr false
  let qukey_index := lookupQukey c head.addr
  let qstate1 :=
    match qukey_index with
    | some _ => Function.update s.qukey_state head.addr qukey_state
    | none => s.qukey_state
  let keycode :=
    match qukey_index with
    | some i =>
      if qukey_state = QUKEY_STATE_ALTERNATE then
        (getQukey c.qukeys i).alt_keycode
      else c.layerLookup head.addr
    | none => c.layerLookup head.addr
  let emits : List Emit :=
    [Emit.keyEvent keycode head.addr injectedPress, Emit.sendReport] ++
      (if !keyToggledOn keyswitch_state then
        [Emit.keyEvent keycode head.addr injectedHeld]
      else [])
  -- the shift loop `key_queue_[i] = key_queue_[i+1]` for i < length
  let kq1 : Nat → QueueItem := fun i =>
    if i < s.key_queue_length then s.key_queue (i + 1) else s.key_queue i
  (⟨kq1, s.key_queue_length - 1, qstate1, masked1⟩,
   ⟨head, qukey_state, keyswitch_state, keycode, emits⟩)

/-- The loop of `Qukeys::flushQueue(void)` of part_001: flush entries from
the head as primary, pressed-and-held, while the head is not a registered
qukey.  `fuel` starts at the queue length, which bounds the iteration
count exactly. -/
def flushQueueAll (c : Ctx) : Nat → State → State × List FlushTrace
  | 0, s => (s, [])
  | fuel + 1, s =>
    if s.key_queue_length > 0 ∧ lookupQukey c (s.key_queue 0).addr = none
    then
      let r := flushKey c s QUKEY_STATE_PRIMARY pressedHeld
      let rest := flushQueueAll c fuel r.1
      (rest.1, r.2 :: rest.2)
    else (s, [])

/-- `Qukeys::enqueue` of part_001: on a full queue evict the head (primary,
pressed-and-held) and then flush all non-qukey entries from the front;
append the new entry with deadline `millis() + time_limit_` and mask it. -/
def enqueue (c : Ctx) (s : State) (key_addr : Nat) (now : Nat) :
    State × List FlushTrace :=
  let evicted : State × List FlushTrace :=
    if s.key_queue_length = QUKEYS_QUEUE_MAX then
      let r := flushKey c s QUKEY_STATE_PRIMARY pressedHeld
      let rest := flushQueueAll c r.1.key_queue_length r.1
      (rest.1, r.2 :: rest.2)
    else (s, [])
  let s1 := evicted.1
  (⟨Function.update s1.key_queue s1.key_queue_length
      ⟨key_addr, now + c.time_limit⟩,
    s1.key_queue_length + 1,
    s1.qukey_state,
    Function.update s1.masked key_addr true⟩,
   evicted.2)

/-- `Qukeys::searchQueue` of part_001. -/
def searchQueue (s : State) (key_addr : Nat) : Option Nat :=
  (List.range s.key_queue_length).find? fun i =>
    (s.key_queue i).addr == key_addr

/-- The loop of `Qukeys::flushQueue(int8_t)` of part_001 (identical to the
other revision). -/
def flushQueueLoop (c : Ctx) : Nat → State → State × List FlushTrace
  | 0, s => (s, [])
  | n + 1, s =>
    if s.key_queue_length = 0 then (s, [])
    else
      let r := flushKey c s QUKEY_STATE_ALTERNATE pressedHeld
      let rest := flushQueueLoop c n r.1
      (rest.1, r.2 :: rest.2)

/-- `Qukeys::flushQueue(int8_t index)` of part_001. -/
def flushQueue (c : Ctx) (s : State) (index : Option Nat) :
    State × List FlushTrace :=
  match index with
  | none => (s, [])
  | some idx =>
    let front := flushQueueLoop c idx s
    let last := flushKey c front.1 QUKEY_STATE_PRIMARY wasPressedOnly
    (last.1, front.2 ++ [last.2])

/-- The `while` loop of `Qukeys::preReportHook` of part_001: while the
queue is non-empty, flush a non-qukey head as primary, flush an overdue
qukey head as alternate, and break otherwise.  `fuel` starts at the queue
length; every continuing iteration shortens the queue by one, so when the
fuel runs out the queue is empty and returning unchanged coincides with
the loop guard. -/
def preReportLoop (c : Ctx) (now : Nat) :
    Nat → State → State × List FlushTrace
  | 0, s => (s, [])
  | fuel + 1, s =>
    if s.key_queue_length = 0 then (s, [])
    else if lookupQukey c (s.key_queue 0).addr = none then
      let r := flushKey c s QUKEY_STATE_PRIMARY pressedHeld
      let rest := preReportLoop c now fuel r.1
      (rest.1, r.2 :: rest.2)
    else if now > (s.key_queue 0).flush_time then
      let r := flushKey c s QUKEY_STATE_ALTERNATE pressedHeld
      let rest := preReportLoop c now fuel r.1
      (rest.1, r.2 :: rest.2)
    else (s, [])

/-- `Qukeys::preReportHook` of part_001. -/
def preReportHook (c : Ctx) (s : State) (now : Nat) :
    State × List FlushTrace :=
  preReportLoop c now s.key_queue_length s

/-- `Qukeys::eventHandlerHook` of part_001.  The returned `Bool` is the
continue-to-next-plugin flag (`false` suppresses the event) and the
returned `Nat` is the final value of the by-reference `mapped_key`. -/
def eventHandlerHook (c : Ctx) (s : State) (mapped_key key_addr : Nat)
    (key_state : KeyswitchState) (now : Nat) :
    State × Bool × Nat × List FlushTrace :=
  if !c.active then (s, true, mapped_key, [])
  else if key_state.injected then (s, true, mapped_key, [])
  else if !keyIsPressed key_state && !keyWasPressed key_state then
    (s, true, mapped_key, [])
  else
    let qukey_index := lookupQukey c key_addr
    if keyToggledOn key_state then
      if s.key_queue_length = 0 ∧ qukey_index = none then
        (s, true, mapped_key, [])
      else
        let r := enqueue c s key_addr now
        (r.1, false, Key_NoKey, r.2)
    else
      let queue_index := searchQueue s key_addr
      if keyToggledOff key_state then
        match queue_index with
        | none => (s, true, mapped_key, [])
        | some qi =>
          let r := flushQueue c s (some qi)
          (r.1, true, mapped_key, r.2)
      else
        match qukey_index with
        | none =>
          match queue_index with
          | none => (s, true, mapped_key, [])
          | some _ => (s, false, Key_NoKey, [])
        | some i =>
          match queue_index with
          | none =>
            if getQukeyState s key_addr = QUKEY_STATE_ALTERNATE then
              (s, true, (getQukey c.qukeys i).alt_keycode, [])
            else (s, true, mapped_key, [])
          | some _ => (s, false, Key_NoKey, [])

end V2

/-- The queue-array indices read by the shift loop of `Qukeys::flushKey`
(`for (byte i = 0; i < key_queue_length_; i++) key_queue_[i] =
key_queue_[i + 1];`, identical in both revisions): with queue length
`len` the loop reads slots `1` through `len`. -/
def shiftReadIndices (len : Nat) : List Nat :=
  (List.range len).map (· + 1)


/-- Projection of a resolution record to the facts the claims are about:
the resolved entry, the role it was given and its keyswitch condition. -/
def V1.FlushTrace.summary (t : V1.FlushTrace) :
    QueueItem × Nat × KeyswitchState :=
  (t.entry, t.qukey_state, t.keyswitch_state)

/-- Projection of a part_001 resolution record to entry, role and
keyswitch condition. -/
def V2.FlushTrace.summary (t : V2.FlushTrace) :
    QueueItem × Bool × KeyswitchState :=
  (t.entry, t.qukey_state, t.keyswitch_state)

/-- Deadlines are non-decreasing along the live queue prefix. -/
def V1.SortedQ (s : V1.State) : Prop :=
  ∀ j, j < s.key_queue_length → ∀ i, i ≤ j →
    (s.key_queue i).flush_time ≤ (s.key_queue j).flush_time

/-- Deadlines are non-decreasing along the live queue prefix. -/
def V2.SortedQ (s : V2.State) : Prop :=
  ∀ j, j < s.key_queue_length → ∀ i, i ≤ j →
    (s.key_queue i).flush_time ≤ (s.key_queue j).flush_time

theorem v1_flushKey_fst_len (c : V1.Ctx) (s : V1.State) (r : Nat)
    (k : KeyswitchState) :
    (V1.flushKey c s r k).1.key_queue_length = s.key_queue_length - 1 := rfl

theorem v1_flushKey_fst_queue (c : V1.Ctx) (s : V1.State) (r : Nat)
    (k : KeyswitchState) (i : Nat) (h : i < s.key_queue_length) :
    (V1.flushKey c s r k).1.key_queue i = s.key_queue (i + 1) := by
  show (if i < s.key_queue_length then s.key_queue (i + 1)
        else s.key_queue i) = s.key_queue (i + 1)
  rw [if_pos h]

theorem v1_flushKey_summary (c : V1.Ctx) (s : V1.State) (r : Nat)
    (k : KeyswitchState) :
    (V1.flushKey c s r k).2.summary = (s.key_queue 0, r, k) := rfl

theorem v2_flushKey_fst_len (c : V2.Ctx) (s : V2.State) (r : Bool)
    (k : KeyswitchState) :
    (V2.flushKey c s r k).1.key_queue_length = s.key_queue_length - 1 := rfl

theorem v2_flushKey_fst_queue (c : V2.Ctx) (s : V2.State) (r : Bool)
    (k : KeyswitchState) (i : Nat) (h : i < s.key_queue_length) :
    (V2.flushKey c s r k).1.key_queue i = s.key_queue (i + 1) := by
  show (if i < s.key_queue_length then s.key_queue (i + 1)
        else s.key_queue i) = s.key_queue (i + 1)
  rw [if_pos h]

theorem v2_flushKey_summary (c : V2.Ctx) (s : V2.State) (r : Bool)
    (k : KeyswitchState) :
    (V2.flushKey c s r k).2.summary = (s.key_queue 0, r, k) := rfl

theorem v1_flushQueueLoop_spec (c : V1.Ctx) :
    ∀ (n : Nat) (s : V1.State), n ≤ s.key_queue_length →
      (V1.flushQueueLoop c n s).1.key_queue_length =
          s.key_queue_length - n ∧
      (∀ i, i < s.key_queue_length - n →
        (V1.flushQueueLoop c n s).1.key_queue i = s.key_queue (i + n)) ∧
      (V1.flushQueueLoop c n s).2.map V1.FlushTrace.summary =
        (List.range n).map fun j =>
          (s.key_queue j, V1.QUKEY_STATE_ALTERNATE, pressedHeld) := by
  intro n
  induction n with
  | zero => intro s _; simp [V1.flushQueueLoop]
  | succ n ih =>
    intro s hn
    have hpos : ¬ s.key_queue_length = 0 := by omega
    have hlen :
        (V1.flushKey c s V1.QUKEY_STATE_ALTERNATE pressedHeld).1.key_queue_length
          = s.key_queue_length - 1 := v1_flushKey_fst_len c s _ _
    obtain ⟨ih1, ih2, ih3⟩ :=
      ih (V1.flushKey c s V1.QUKEY_STATE_ALTERNATE pressedHeld).1
        (by rw [hlen]; omega)
    rw [V1.flushQueueLoop, if_neg hpos]
    refine ⟨?_, ?_, ?_⟩
    · rw [ih1, hlen]; omega
    · intro i hi
      rw [ih2 i (by rw [hlen]; omega),
        v1_flushKey_fst_queue c s _ _ (i + n) (by omega)]
      have : i + n + 1 = i + (n + 1) := by omega
      rw [this]
    · rw [List.map_cons, ih3, v1_flushKey_summary, List.range_succ_eq_map,
        List.map_cons, List.map_map]
      refine congrArg (_ :: ·) ?_
      refine List.map_congr_left ?_
      intro j hj
      have hj' : j < n := List.mem_range.mp hj
      simp only [Function.comp]
      rw [v1_flushKey_fst_queue c s _ _ j (by omega)]

theorem v2_flushQueueLoop_spec (c : V2.Ctx) :
    ∀ (n : Nat) (s : V2.State), n ≤ s.key_queue_length →
      (V2.flushQueueLoop c n s).1.key_queue_length =
          s.key_queue_length - n ∧
      (∀ i, i < s.key_queue_length - n →
        (V2.flushQueueLoop c n s).1.key_queue i = s.key_queue (i + n)) ∧
      (V2.flushQueueLoop c n s).2.map V2.FlushTrace.summary =
        (List.range n).map fun j =>
          (s.key_queue j, V2.QUKEY_STATE_ALTERNATE, pressedHeld) := by
  intro n
  induction n with
  | zero => intro s _; simp [V2.flushQueueLoop]
  | succ n ih =>
    intro s hn
    have hpos : ¬ s.key_queue_length = 0 := by omega
    have hlen :
        (V2.flushKey c s V2.QUKEY_STATE_ALTERNATE pressedHeld).1.key_queue_length
          = s.key_queue_length - 1 := v2_flushKey_fst_len c s _ _
    obtain ⟨ih1, ih2, ih3⟩ :=
      ih (V2.flushKey c s V2.QUKEY_STATE_ALTERNATE pressedHeld).1
        (by rw [hlen]; omega)
    rw [V2.flushQueueLoop, if_neg hpos]
    refine ⟨?_, ?_, ?_⟩
    · rw [ih1, hlen]; omega
    · intro i hi
      rw [ih2 i (by rw [hlen]; omega),
        v2_flushKey_fst_queue c s _ _ (i + n) (by omega)]
      have : i + n + 1 = i + (n + 1) := by omega
      rw [this]
    · rw [List.map_cons, ih3, v2_flushKey_summary, List.range_succ_eq_map,
        List.map_cons, List.map_map]
      refine congrArg (_ :: ·) ?_
      refine List.map_congr_left ?_
      intro j hj
      have hj' : j < n := List.mem_range.mp hj
      simp only [Function.comp]
      rw [v2_flushKey_fst_queue c s _ _ j (by omega)]

theorem v1_searchQueue_lt (s : V1.State) (a idx : Nat)
    (h : V1.searchQueue s a = some idx) : idx < s.key_queue_length := by
  have := List.mem_of_find?_eq_some h
  exact List.mem_range.mp this

theorem v2_searchQueue_lt (s : V2.State) (a idx : Nat)
    (h : V2.searchQueue s a = some idx) : idx < s.key_queue_length := by
  have := List.mem_of_find?_eq_some h
  exact List.mem_range.mp this

theorem v1_flushQueue_spec (c : V1.Ctx) (s : V1.State) (idx : Nat)
    (h : idx < s.key_queue_length) :
    (V1.flushQueue c s (some idx)).2.map V1.FlushTrace.summary =
      ((List.range idx).map fun j =>
        (s.key_queue j, V1.QUKEY_STATE_ALTERNATE, pressedHeld)) ++
        [(s.key_queue idx, V1.QUKEY_STATE_PRIMARY, wasPressedOnly)] ∧
    (V1.flushQueue c s (some idx)).1.key_queue_length =
      s.key_queue_length - (idx + 1) ∧
    ∀ i, i < s.key_queue_length - (idx + 1) →
      (V1.flushQueue c s (some idx)).1.key_queue i =
        s.key_queue (i + (idx + 1)) := by
  obtain ⟨h1, h2, h3⟩ := v1_flushQueueLoop_spec c idx s (by omega)
  rw [V1.flushQueue]
  refine ⟨?_, ?_, ?_⟩
  · rw [List.map_append, h3, List.map_cons, List.map_nil, v1_flushKey_summary]
    rw [h2 0 (by omega)]
    norm_num
  · rw [v1_flushKey_fst_len, h1]; omega
  · intro i hi
    rw [v1_flushKey_fst_queue c _ _ _ i (by rw [h1]; omega),
      h2 (i + 1) (by omega)]
    have : i + 1 + idx = i + (idx + 1) := by omega
    rw [this]

theorem v2_flushQueue_spec (c : V2.Ctx) (s : V2.State) (idx : Nat)
    (h : idx < s.key_queue_length) :
    (V2.flushQueue c s (some idx)).2.map V2.FlushTrace.summary =
      ((List.range idx).map fun j =>
        (s.key_queue j, V2.QUKEY_STATE_ALTERNATE, pressedHeld)) ++
        [(s.key_queue idx, V2.QUKEY_STATE_PRIMARY, wasPressedOnly)] ∧
    (V2.flushQueue c s (some idx)).1.key_queue_length =
      s.key_queue_length - (idx + 1) ∧
    ∀ i, i < s.key_queue_length - (idx + 1) →
      (V2.flushQueue c s (some idx)).1.key_queue i =
        s.key_queue (i + (idx + 1)) := by
  obtain ⟨h1, h2, h3⟩ := v2_flushQueueLoop_spec c idx s (by omega)
  rw [V2.flushQueue]
  refine ⟨?_, ?_, ?_⟩
  · rw [List.map_append, h3, List.map_cons, List.map_nil, v2_flushKey_summary]
    rw [h2 0 (by omega)]
    norm_num
  · rw [v2_flushKey_fst_len, h1]; omega
  · intro i hi
    rw [v2_flushKey_fst_queue c _ _ _ i (by rw [h1]; omega),
      h2 (i + 1) (by omega)]
    have : i + 1 + idx = i + (idx + 1) := by omega
    rw [this]

theorem v1_keyScanHook_toggledOff (c : V1.Ctx) (s : V1.State)
    (mapped key_addr idx now : Nat) (k : KeyswitchState)
    (hact : c.active = true) (hoff : keyToggledOff k = true)
    (hinj : k.injected = false)
    (hq : V1.searchQueue s key_addr = some idx) :
    V1.keyScanHook c s mapped key_addr k now =
      ((V1.flushQueue c s (some idx)).1, mapped,
        (V1.flushQueue c s (some idx)).2) := by
  obtain ⟨p, w, inj⟩ := k
  simp only [keyToggledOff, Bool.and_eq_true, Bool.not_eq_true'] at hoff
  obtain ⟨hp, hw⟩ := hoff
  subst hp hw hinj
  simp [V1.keyScanHook, V1.keyScanCont, hact, hq, keyToggledOn, keyToggledOff,
    keyIsPressed, keyWasPressed]

theorem v2_eventHandlerHook_toggledOff (c : V2.Ctx) (s : V2.State)
    (mapped key_addr idx now : Nat) (k : KeyswitchState)
    (hact : c.active = true) (hoff : keyToggledOff k = true)
    (hinj : k.injected = false)
    (hq : V2.searchQueue s key_addr = some idx) :
    V2.eventHandlerHook c s mapped key_addr k now =
      ((V2.flushQueue c s (some idx)).1, true, mapped,
        (V2.flushQueue c s (some idx)).2) := by
  obtain ⟨p, w, inj⟩ := k
  simp only [keyToggledOff, Bool.and_eq_true, Bool.not_eq_true'] at hoff
  obtain ⟨hp, hw⟩ := hoff
  subst hp hw hinj
  simp [V2.eventHandlerHook, hact, hq, keyToggledOn, keyToggledOff,
    keyIsPressed, keyWasPressed]

/-- Claim C2: on a toggled-off event of a key queued at position `index`,
every entry strictly before `index` is resolved alternate-role with the
pressed-and-held condition, oldest first, then the entry at `index` is
resolved primary-role with the press-plus-release condition, the queue is
drained past `index`, and the release event is passed through unmodified.
Stated for both revisions (`keyScanHook` of Qukeys.cpp, `eventHandlerHook`
of part_001), whose `flushQueue(int8_t)` are identical. -/
theorem c2_release_flushes_queue_in_fifo_order :
    (∀ (c : V1.Ctx) (s : V1.State) (mapped key_addr idx now : Nat)
        (k : KeyswitchState),
      c.active = true → keyToggledOff k = true → k.injected = false →
      V1.searchQueue s key_addr = some idx →
      (V1.keyScanHook c s mapped key_addr k now).2.1 = mapped ∧
      (V1.keyScanHook c s mapped key_addr k now).2.2.map
          V1.FlushTrace.summary =
        ((List.range idx).map fun j =>
          (s.key_queue j, V1.QUKEY_STATE_ALTERNATE, pressedHeld)) ++
          [(s.key_queue idx, V1.QUKEY_STATE_PRIMARY, wasPressedOnly)] ∧
      (V1.keyScanHook c s mapped key_addr k now).1.key_queue_length =
        s.key_queue_length - (idx + 1) ∧
      ∀ i, i < s.key_queue_length - (idx + 1) →
        (V1.keyScanHook c s mapped key_addr k now).1.key_queue i =
          s.key_queue (i + (idx + 1))) ∧
    (∀ (c : V2.Ctx) (s : V2.State) (mapped key_addr idx now : Nat)
        (k : KeyswitchState),
      c.active = true → keyToggledOff k = true → k.injected = false →
      V2.searchQueue s key_addr = some idx →
      (V2.eventHandlerHook c s mapped key_addr k now).2.1 = true ∧
      (V2.eventHandlerHook c s mapped key_addr k now).2.2.1 = mapped ∧
      (V2.eventHandlerHook c s mapped key_addr k now).2.2.2.map
          V2.FlushTrace.summary =
        ((List.range idx).map fun j =>
          (s.key_queue j, V2.QUKEY_STATE_ALTERNATE, pressedHeld)) ++
          [(s.key_queue idx, V2.QUKEY_STATE_PRIMARY, wasPressedOnly)] ∧
      (V2.eventHandlerHook c s mapped key_addr k now).1.key_queue_length =
        s.key_queue_length - (idx + 1) ∧
      ∀ i, i < s.key_queue_length - (idx + 1) →
        (V2.eventHandlerHook c s mapped key_addr k now).1.key_queue i =
          s.key_queue (i + (idx + 1))) := by
  constructor
  · intro c s mapped key_addr idx now k hact hoff hinj hq
    have hlt := v1_searchQueue_lt s key_addr idx hq
    obtain ⟨f1, f2, f3⟩ := v1_flushQueue_spec c s idx hlt
    rw [v1_keyScanHook_toggledOff c s mapped key_addr idx now k hact hoff
      hinj hq]
    exact ⟨rfl, f1, f2, f3⟩
  · intro c s mapped key_addr idx now k hact hoff hinj hq
    have hlt := v2_searchQueue_lt s key_addr idx hq
    obtain ⟨f1, f2, f3⟩ := v2_flushQueue_spec c s idx hlt
    rw [v2_eventHandlerHook_toggledOff c s mapped key_addr idx now k hact
      hoff hinj hq]
    exact ⟨rfl, rfl, f1, f2, f3⟩

/-- A sample Qukeys.cpp context: layer 0 everywhere, default keycode 100,
timeout 200, plugin enabled. -/
def exCtxV1 : V1.Ctx := ⟨fun _ => 0, fun _ => 100, 200, true⟩

/-- A sample Qukeys.cpp state: no registered qukeys, two queued entries. -/
def exStateV1 : V1.State :=
  ⟨[], fun i => if i = 0 then ⟨3, 10⟩ else if i = 1 then ⟨5, 20⟩
    else ⟨QUKEY_UNKNOWN_ADDR, 0⟩, 2⟩

theorem c2_release_flushes_queue_in_fifo_order_witness :
    (V1.keyScanHook exCtxV1 exStateV1 7 5 wasPressedOnly 0).2.1 = 7 ∧
    (V1.keyScanHook exCtxV1 exStateV1 7 5 wasPressedOnly 0).2.2.map
        V1.FlushTrace.summary =
      [(⟨3, 10⟩, V1.QUKEY_STATE_ALTERNATE, pressedHeld),
       (⟨5, 20⟩, V1.QUKEY_STATE_PRIMARY, wasPressedOnly)] ∧
    (V1.keyScanHook exCtxV1 exStateV1 7 5 wasPressedOnly 0).1.key_queue_length
      = 0 := by
  obtain ⟨h1, h2, h3, _⟩ :=
    c2_release_flushes_queue_in_fifo_order.1 exCtxV1 exStateV1 7 5 1 0
      wasPressedOnly rfl rfl rfl (by decide)
  refine ⟨h1, ?_, ?_⟩
  · rw [h2]; decide
  · rw [h3]; decide

/-- Claim C4: a non-injected toggled-on event of a key that is not a
registered qukey, arriving while the queue is empty, passes through with
its mapped code unchanged and leaves the whole engine state untouched, in
both revisions. -/
theorem c4_non_qukey_empty_queue_fast_path :
    (∀ (c : V1.Ctx) (s : V1.State) (mapped key_addr now : Nat)
        (k : KeyswitchState),
      c.active = true → k.injected = false → keyToggledOn k = true →
      V1.lookupQukey c s key_addr = none → s.key_queue_length = 0 →
      V1.keyScanHook c s mapped key_addr k now = (s, mapped, [])) ∧
    (∀ (c : V2.Ctx) (s : V2.State) (mapped key_addr now : Nat)
        (k : KeyswitchState),
      c.active = true → k.injected = false → keyToggledOn k = true →
      V2.lookupQukey c key_addr = none → s.key_queue_length = 0 →
      V2.eventHandlerHook c s mapped key_addr k now = (s, true, mapped, [])) := by
  constructor
  · intro c s mapped key_addr now k hact hinj hon hqk hlen
    obtain ⟨p, w, inj⟩ := k
    simp only [keyToggledOn, Bool.and_eq_true, Bool.not_eq_true'] at hon
    obtain ⟨hp, hw⟩ := hon
    subst hp hw hinj
    simp [V1.keyScanHook, hact, hqk, hlen, keyToggledOn, keyIsPressed,
      keyWasPressed]
  · intro c s mapped key_addr now k hact hinj hon hqk hlen
    obtain ⟨p, w, inj⟩ := k
    simp only [keyToggledOn, Bool.and_eq_true, Bool.not_eq_true'] at hon
    obtain ⟨hp, hw⟩ := hon
    subst hp hw hinj
    simp [V2.eventHandlerHook, hact, hqk, hlen, keyToggledOn, keyIsPressed,
      keyWasPressed]

/-- A sample Qukeys.cpp state with an empty queue and no registered
qukeys. -/
def exEmptyV1 : V1.State := ⟨[], fun _ => ⟨QUKEY_UNKNOWN_ADDR, 0⟩, 0⟩

theorem c4_non_qukey_empty_queue_fast_path_witness :
    V1.keyScanHook exCtxV1 exEmptyV1 42 3 ⟨true, false, false⟩ 0 =
      (exEmptyV1, 42, []) :=
  c4_non_qukey_empty_queue_fast_path.1 exCtxV1 exEmptyV1 42 3 0
    ⟨true, false, false⟩ rfl rfl rfl (by decide) rfl

/-- Claim C6: an event carrying the injected flag passes through with the
mapped code unchanged and the engine state (queue, resolution states,
masking) exactly as before, in both revisions. -/
theorem c6_injected_events_pass_through_untouched :
    (∀ (c : V1.Ctx) (s : V1.State) (mapped key_addr now : Nat)
        (k : KeyswitchState), k.injected = true →
      V1.keyScanHook c s mapped key_addr k now = (s, mapped, [])) ∧
    (∀ (c : V2.Ctx) (s : V2.State) (mapped key_addr now : Nat)
        (k : KeyswitchState), k.injected = true →
      V2.eventHandlerHook c s mapped key_addr k now = (s, true, mapped, [])) := by
  constructor
  · intro c s mapped key_addr now k hinj
    by_cases hact : c.active
    · simp [V1.keyScanHook, hact, hinj]
    · simp [V1.keyScanHook, hact]
  · intro c s mapped key_addr now k hinj
    by_cases hact : c.active
    · simp [V2.eventHandlerHook, hact, hinj]
    · simp [V2.eventHandlerHook, hact]

theorem c6_injected_events_pass_through_untouched_witness :
    V1.keyScanHook exCtxV1 exStateV1 9 3 injectedPress 5 =
      (exStateV1, 9, []) :=
  c6_injected_events_pass_through_untouched.1 exCtxV1 exStateV1 9 3 5
    injectedPress rfl

theorem v2_preReportLoop_spec (c : V2.Ctx) (now : Nat) :
    ∀ (fuel : Nat) (s : V2.State), s.key_queue_length ≤ fuel →
      ∃ k, k ≤ s.key_queue_length ∧
        (V2.preReportLoop c now fuel s).2.map V2.FlushTrace.summary =
          (List.range k).map (fun j =>
            (s.key_queue j,
             if V2.lookupQukey c (s.key_queue j).addr = none
             then V2.QUKEY_STATE_PRIMARY else V2.QUKEY_STATE_ALTERNATE,
             pressedHeld)) ∧
        (∀ j, j < k → V2.lookupQukey c (s.key_queue j).addr ≠ none →
          now > (s.key_queue j).flush_time) ∧
        (V2.preReportLoop c now fuel s).1.key_queue_length =
          s.key_queue_length - k ∧
        (∀ i, i < s.key_queue_length - k →
          (V2.preReportLoop c now fuel s).1.key_queue i =
            s.key_queue (i + k)) ∧
        (k < s.key_queue_length →
          V2.lookupQukey c (s.key_queue k).addr ≠ none ∧
          ¬ now > (s.key_queue k).flush_time) := by
  intro fuel
  induction fuel with
  | zero =>
    intro s hf
    refine ⟨0, by omega, by simp [V2.preReportLoop], by omega, ?_, ?_,
      by omega⟩
    · simp [V2.preReportLoop]
    · intro i hi
      simp [V2.preReportLoop]
  | succ fuel ih =>
    intro s hf
    by_cases h0 : s.key_queue_length = 0
    · have hs1 : (V2.preReportLoop c now (fuel + 1) s).1 = s := by
        rw [V2.preReportLoop, if_pos h0]
      have hs2 : (V2.preReportLoop c now (fuel + 1) s).2 = [] := by
        rw [V2.preReportLoop, if_pos h0]
      refine ⟨0, by omega, by rw [hs2]; simp, by omega, ?_, ?_, by omega⟩
      · rw [hs1]; omega
      · intro i hi
        rw [hs1]; norm_num
    · by_cases hl : V2.lookupQukey c (s.key_queue 0).addr = none
      · -- non-qukey head: flushed as primary
        have hs1 : (V2.preReportLoop c now (fuel + 1) s).1 =
            (V2.preReportLoop c now fuel
              (V2.flushKey c s V2.QUKEY_STATE_PRIMARY pressedHeld).1).1 := by
          rw [V2.preReportLoop, if_neg h0, if_pos hl]
        have hs2 : (V2.preReportLoop c now (fuel + 1) s).2 =
            (V2.flushKey c s V2.QUKEY_STATE_PRIMARY pressedHeld).2 ::
              (V2.preReportLoop c now fuel
                (V2.flushKey c s V2.QUKEY_STATE_PRIMARY pressedHeld).1).2 := by
          rw [V2.preReportLoop, if_neg h0, if_pos hl]
        have hlen :
            (V2.flushKey c s V2.QUKEY_STATE_PRIMARY pressedHeld).1.key_queue_length
              = s.key_queue_length - 1 := v2_flushKey_fst_len c s _ _
        obtain ⟨k1, hk1, htr, hcond, hfin, hent, hstop⟩ :=
          ih (V2.flushKey c s V2.QUKEY_STATE_PRIMARY pressedHeld).1
            (by rw [hlen]; omega)
        rw [hlen] at hk1 hfin hent hstop
        refine ⟨k1 + 1, by omega, ?_, ?_, ?_, ?_, ?_⟩
        · rw [hs2, List.map_cons, htr, v2_flushKey_summary,
            List.range_succ_eq_map, List.map_cons, List.map_map]
          rw [if_pos hl]
          refine congrArg (_ :: ·) ?_
          refine List.map_congr_left ?_
          intro j hj
          have hj' : j < k1 := List.mem_range.mp hj
          simp only [Function.comp]
          rw [v2_flushKey_fst_queue c s _ _ j (by omega)]
        · intro j hj hqk
          match j with
          | 0 => exact absurd hl hqk
          | j + 1 =>
            have hx := hcond j (by omega)
            rw [v2_flushKey_fst_queue c s _ _ j (by omega)] at hx
            exact hx hqk
        · rw [hs1, hfin]; omega
        · intro i hi
          rw [hs1, hent i (by omega),
            v2_flushKey_fst_queue c s _ _ (i + k1) (by omega)]
          have he : i + k1 + 1 = i + (k1 + 1) := by omega
          rw [he]
        · intro hklt
          have hx := hstop (by omega)
          rw [v2_flushKey_fst_queue c s _ _ k1 (by omega)] at hx
          exact hx
      · by_cases ht : now > (s.key_queue 0).flush_time
        · -- overdue qukey head: flushed as alternate
          have hs1 : (V2.preReportLoop c now (fuel + 1) s).1 =
              (V2.preReportLoop c now fuel
                (V2.flushKey c s V2.QUKEY_STATE_ALTERNATE pressedHeld).1).1 := by
            rw [V2.preReportLoop, if_neg h0, if_neg hl, if_pos ht]
          have hs2 : (V2.preReportLoop c now (fuel + 1) s).2 =
              (V2.flushKey c s V2.QUKEY_STATE_ALTERNATE pressedHeld).2 ::
                (V2.preReportLoop c now fuel
                  (V2.flushKey c s V2.QUKEY_STATE_ALTERNATE pressedHeld).1).2 := by
            rw [V2.preReportLoop, if_neg h0, if_neg hl, if_pos ht]
          have hlen :
              (V2.flushKey c s V2.QUKEY_STATE_ALTERNATE pressedHeld).1.key_queue_length
                = s.key_queue_length - 1 := v2_flushKey_fst_len c s _ _
          obtain ⟨k1, hk1, htr, hcond, hfin, hent, hstop⟩ :=
            ih (V2.flushKey c s V2.QUKEY_STATE_ALTERNATE pressedHeld).1
              (by rw [hlen]; omega)
          rw [hlen] at hk1 hfin hent hstop
          refine ⟨k1 + 1, by omega, ?_, ?_, ?_, ?_, ?_⟩
          · rw [hs2, List.map_cons, htr, v2_flushKey_summary,
              List.range_succ_eq_map, List.map_cons, List.map_map]
            rw [if_neg hl]
            refine congrArg (_ :: ·) ?_
            refine List.map_congr_left ?_
            intro j hj
            have hj' : j < k1 := List.mem_range.mp hj
            simp only [Function.comp]
            rw [v2_flushKey_fst_queue c s _ _ j (by omega)]
          · intro j hj hqk
            match j with
            | 0 => exact ht
            | j + 1 =>
              have hx := hcond j (by omega)
              rw [v2_flushKey_fst_queue c s _ _ j (by omega)] at hx
              exact hx hqk
          · rw [hs1, hfin]; omega
          · intro i hi
            rw [hs1, hent i (by omega),
              v2_flushKey_fst_queue c s _ _ (i + k1) (by omega)]
            have he : i + k1 + 1 = i + (k1 + 1) := by omega
            rw [he]
          · intro hklt
            have hx := hstop (by omega)
            rw [v2_flushKey_fst_queue c s _ _ k1 (by omega)] at hx
            exact hx
        · -- pending qukey head: the sweep stops
          have hs1 : (V2.preReportLoop c now (fuel + 1) s).1 = s := by
            rw [V2.preReportLoop, if_neg h0, if_neg hl, if_neg ht]
          have hs2 : (V2.preReportLoop c now (fuel + 1) s).2 = [] := by
            rw [V2.preReportLoop, if_neg h0, if_neg hl, if_neg ht]
          refine ⟨0, by omega, by rw [hs2]; simp, by omega, ?_, ?_, ?_⟩
          · rw [hs1]; omega
          · intro i hi
            rw [hs1]; norm_num
          · intro _; exact ⟨hl, ht⟩

/-- Claim C1 (amended to the part_001 revision, whose sweep the claim
describes): one invocation of `preReportHook` resolves a prefix of `k`
queue entries, oldest first — each resolved entry is taken at the head,
resolved primary-role exactly when its address is not a registered qukey
and alternate-role otherwise, always with the pressed-and-held condition;
every alternate resolution happens only with the current time past that
entry's deadline; the remaining entries are untouched and shifted to the
front; and when the sweep stops early the stopping entry is a registered
qukey whose deadline has not passed. -/
theorem c1_timeout_sweep_resolves_prefix_in_order (c : V2.Ctx)
    (s : V2.State) (now : Nat) :
    ∃ k, k ≤ s.key_queue_length ∧
      (V2.preReportHook c s now).2.map V2.FlushTrace.summary =
        (List.range k).map (fun j =>
          (s.key_queue j,
           if V2.lookupQukey c (s.key_queue j).addr = none
           then V2.QUKEY_STATE_PRIMARY else V2.QUKEY_STATE_ALTERNATE,
           pressedHeld)) ∧
      (∀ j, j < k → V2.lookupQukey c (s.key_queue j).addr ≠ none →
        now > (s.key_queue j).flush_time) ∧
      (V2.preReportHook c s now).1.key_queue_length =
        s.key_queue_length - k ∧
      (∀ i, i < s.key_queue_length - k →
        (V2.preReportHook c s now).1.key_queue i = s.key_queue (i + k)) ∧
      (k < s.key_queue_length →
        V2.lookupQukey c (s.key_queue k).addr ≠ none ∧
        ¬ now > (s.key_queue k).flush_time) :=
  v2_preReportLoop_spec c now s.key_queue_length s (le_refl _)

/-- A sample part_001 context: one qukey at address 5 on layer 0 with
alternate code 9. -/
def exSweepCtx : V2.Ctx := ⟨[⟨0, 5, 9⟩], fun _ => 0, fun _ => 100, 200, true⟩

/-- A sample part_001 state: a non-qukey entry queued ahead of a qukey
entry whose deadline has not yet passed at time 20. -/
def exSweepState : V2.State :=
  ⟨fun i => if i = 0 then ⟨7, 10⟩ else if i = 1 then ⟨5, 30⟩
    else ⟨QUKEY_UNKNOWN_ADDR, 0⟩, 2, fun _ => false, fun _ => false⟩

theorem c1_timeout_sweep_resolves_prefix_in_order_witness :
    ∃ k, k ≤ exSweepState.key_queue_length ∧
      (V2.preReportHook exSweepCtx exSweepState 20).2.map
          V2.FlushTrace.summary =
        (List.range k).map (fun j =>
          (exSweepState.key_queue j,
           if V2.lookupQukey exSweepCtx (exSweepState.key_queue j).addr = none
           then V2.QUKEY_STATE_PRIMARY else V2.QUKEY_STATE_ALTERNATE,
           pressedHeld)) ∧
      (∀ j, j < k →
        V2.lookupQukey exSweepCtx (exSweepState.key_queue j).addr ≠ none →
        20 > (exSweepState.key_queue j).flush_time) ∧
      (V2.preReportHook exSweepCtx exSweepState 20).1.key_queue_length =
        exSweepState.key_queue_length - k ∧
      (∀ i, i < exSweepState.key_queue_length - k →
        (V2.preReportHook exSweepCtx exSweepState 20).1.key_queue i =
          exSweepState.key_queue (i + k)) ∧
      (k < exSweepState.key_queue_length →
        V2.lookupQukey exSweepCtx (exSweepState.key_queue k).addr ≠ none ∧
        ¬ 20 > (exSweepState.key_queue k).flush_time) :=
  c1_timeout_sweep_resolves_prefix_in_order exSweepCtx exSweepState 20

/-- Claim C1 counterexample on the Qukeys.cpp revision: its sweep has no
non-qukey branch, so a head entry that is not a registered qukey and whose
deadline has not passed is left in the queue — the claim demands it be
resolved immediately as primary. -/
theorem c1_cpp_sweep_keeps_non_qukey_head :
    V1.lookupQukey exCtxV1 exStateV1 (exStateV1.key_queue 0).addr = none ∧
    0 < exStateV1.key_queue_length ∧
    (V1.preReportHook exCtxV1 exStateV1 5).2 = [] ∧
    (V1.preReportHook exCtxV1 exStateV1 5).1.key_queue_length =
      exStateV1.key_queue_length := by decide

theorem v2_flushQueueAll_spec (c : V2.Ctx) :
    ∀ (fuel : Nat) (s : V2.State),
      (V2.flushQueueAll c fuel s).1.key_queue_length ≤
        s.key_queue_length ∧
      ∀ t ∈ (V2.flushQueueAll c fuel s).2,
        V2.lookupQukey c t.entry.addr = none ∧
        t.qukey_state = V2.QUKEY_STATE_PRIMARY ∧
        t.keyswitch_state = pressedHeld := by
  intro fuel
  induction fuel with
  | zero =>
    intro s
    exact ⟨le_refl _, by simp [V2.flushQueueAll]⟩
  | succ fuel ih =>
    intro s
    by_cases hg : s.key_queue_length > 0 ∧
        V2.lookupQukey c (s.key_queue 0).addr = none
    · have hs1 : (V2.flushQueueAll c (fuel + 1) s).1 =
          (V2.flushQueueAll c fuel
            (V2.flushKey c s V2.QUKEY_STATE_PRIMARY pressedHeld).1).1 := by
        rw [V2.flushQueueAll, if_pos hg]
      have hs2 : (V2.flushQueueAll c (fuel + 1) s).2 =
          (V2.flushKey c s V2.QUKEY_STATE_PRIMARY pressedHeld).2 ::
            (V2.flushQueueAll c fuel
              (V2.flushKey c s V2.QUKEY_STATE_PRIMARY pressedHeld).1).2 := by
        rw [V2.flushQueueAll, if_pos hg]
      obtain ⟨ih1, ih2⟩ :=
        ih (V2.flushKey c s V2.QUKEY_STATE_PRIMARY pressedHeld).1
      constructor
      · rw [hs1]
        refine le_trans ih1 ?_
        rw [v2_flushKey_fst_len]
        omega
      · rw [hs2]
        intro t ht
        rcases List.mem_cons.mp ht with h | h
        · subst h
          exact ⟨hg.2, rfl, rfl⟩
        · exact ih2 t h
    · have hs1 : (V2.flushQueueAll c (fuel + 1) s).1 = s := by
        rw [V2.flushQueueAll, if_neg hg]
      have hs2 : (V2.flushQueueAll c (fuel + 1) s).2 = [] := by
        rw [V2.flushQueueAll, if_neg hg]
      refine ⟨by rw [hs1], by rw [hs2]; simp⟩

/-- Claim C3 (amended): in the Qukeys.cpp revision an enqueue on a full
queue force-resolves exactly the head as primary-role, pressed-and-held,
before appending, and the length returns to capacity; an enqueue on a
non-full queue resolves nothing; in the part_001 revision the head is
force-resolved the same way but is then followed by the eviction of every
non-qukey entry that reaches the head, each also primary-role and
pressed-and-held; in both revisions the queue length never exceeds the
fixed capacity after an enqueue that starts within capacity. -/
theorem c3_enqueue_overflow_evicts_head_and_bounds_length :
    (∀ (c : V1.Ctx) (s : V1.State) (a now : Nat),
      s.key_queue_length = QUKEYS_QUEUE_MAX →
      (V1.enqueue c s a now).2.map V1.FlushTrace.summary =
        [(s.key_queue 0, V1.QUKEY_STATE_PRIMARY, pressedHeld)] ∧
      (V1.enqueue c s a now).1.key_queue_length = QUKEYS_QUEUE_MAX) ∧
    (∀ (c : V1.Ctx) (s : V1.State) (a now : Nat),
      s.key_queue_length ≠ QUKEYS_QUEUE_MAX →
      (V1.enqueue c s a now).2 = [] ∧
      (V1.enqueue c s a now).1.key_queue_length =
        s.key_queue_length + 1) ∧
    (∀ (c : V1.Ctx) (s : V1.State) (a now : Nat),
      s.key_queue_length ≤ QUKEYS_QUEUE_MAX →
      (V1.enqueue c s a now).1.key_queue_length ≤ QUKEYS_QUEUE_MAX) ∧
    (∀ (c : V2.Ctx) (s : V2.State) (a now : Nat),
      s.key_queue_length = QUKEYS_QUEUE_MAX →
      ∃ ts, (V2.enqueue c s a now).2.map V2.FlushTrace.summary =
        (s.key_queue 0, V2.QUKEY_STATE_PRIMARY, pressedHeld) :: ts ∧
        ∀ p ∈ ts, p.2.1 = V2.QUKEY_STATE_PRIMARY ∧ p.2.2 = pressedHeld) ∧
    (∀ (c : V2.Ctx) (s : V2.State) (a now : Nat),
      s.key_queue_length ≤ QUKEYS_QUEUE_MAX →
      (V2.enqueue c s a now).1.key_queue_length ≤ QUKEYS_QUEUE_MAX) := by
  have v1full : ∀ (c : V1.Ctx) (s : V1.State) (a now : Nat),
      s.key_queue_length = QUKEYS_QUEUE_MAX →
      (V1.enqueue c s a now).2 =
        [(V1.flushKey c s V1.QUKEY_STATE_PRIMARY pressedHeld).2] ∧
      (V1.enqueue c s a now).1.key_queue_length =
        (V1.flushKey c s V1.QUKEY_STATE_PRIMARY pressedHeld).1.key_queue_length
          + 1 := by
    intro c s a now h
    constructor
    · rw [V1.enqueue, if_pos h]
    · rw [V1.enqueue, if_pos h]
  have v1notfull : ∀ (c : V1.Ctx) (s : V1.State) (a now : Nat),
      s.key_queue_length ≠ QUKEYS_QUEUE_MAX →
      (V1.enqueue c s a now).2 = [] ∧
      (V1.enqueue c s a now).1.key_queue_length =
        s.key_queue_length + 1 := by
    intro c s a now h
    constructor
    · rw [V1.enqueue, if_neg h]
    · rw [V1.enqueue, if_neg h]
  have v2full : ∀ (c : V2.Ctx) (s : V2.State) (a now : Nat),
      s.key_queue_length = QUKEYS_QUEUE_MAX →
      (V2.enqueue c s a now).2 =
        (V2.flushKey c s V2.QUKEY_STATE_PRIMARY pressedHeld).2 ::
          (V2.flushQueueAll c
            (V2.flushKey c s V2.QUKEY_STATE_PRIMARY pressedHeld).1.key_queue_length
            (V2.flushKey c s V2.QUKEY_STATE_PRIMARY pressedHeld).1).2 ∧
      (V2.enqueue c s a now).1.key_queue_length =
        (V2.flushQueueAll c
          (V2.flushKey c s V2.QUKEY_STATE_PRIMARY pressedHeld).1.key_queue_length
          (V2.flushKey c s V2.QUKEY_STATE_PRIMARY pressedHeld).1).1.key_queue_length
          + 1 := by
    intro c s a now h
    constructor
    · rw [V2.enqueue, if_pos h]
    · rw [V2.enqueue, if_pos h]
  refine ⟨?_, v1notfull, ?_, ?_, ?_⟩
  · intro c s a now h
    obtain ⟨h1, h2⟩ := v1full c s a now h
    refine ⟨by rw [h1, List.map_cons, List.map_nil, v1_flushKey_summary], ?_⟩
    rw [h2, v1_flushKey_fst_len, h]
    decide
  · intro c s a now h
    by_cases hf : s.key_queue_length = QUKEYS_QUEUE_MAX
    · obtain ⟨_, h2⟩ := v1full c s a now hf
      rw [h2, v1_flushKey_fst_len, hf]
      decide
    · obtain ⟨_, h2⟩ := v1notfull c s a now hf
      rw [h2]
      omega
  · intro c s a now h
    obtain ⟨h1, _⟩ := v2full c s a now h
    refine ⟨((V2.flushQueueAll c
        (V2.flushKey c s V2.QUKEY_STATE_PRIMARY pressedHeld).1.key_queue_length
        (V2.flushKey c s V2.QUKEY_STATE_PRIMARY pressedHeld).1).2).map
          V2.FlushTrace.summary, ?_, ?_⟩
    · rw [h1, List.map_cons, v2_flushKey_summary]
    · intro p hp
      obtain ⟨t, ht, rfl⟩ := List.mem_map.mp hp
      obtain ⟨_, hall⟩ := v2_flushQueueAll_spec c
        (V2.flushKey c s V2.QUKEY_STATE_PRIMARY pressedHeld).1.key_queue_length
        (V2.flushKey c s V2.QUKEY_STATE_PRIMARY pressedHeld).1
      obtain ⟨_, hrole, hcond⟩ := hall t ht
      exact ⟨hrole, hcond⟩
  · intro c s a now h
    by_cases hf : s.key_queue_length = QUKEYS_QUEUE_MAX
    · obtain ⟨_, h2⟩ := v2full c s a now hf
      obtain ⟨hb, _⟩ := v2_flushQueueAll_spec c
        (V2.flushKey c s V2.QUKEY_STATE_PRIMARY pressedHeld).1.key_queue_length
        (V2.flushKey c s V2.QUKEY_STATE_PRIMARY pressedHeld).1
      rw [h2]
      have hx : (V2.flushKey c s V2.QUKEY_STATE_PRIMARY
          pressedHeld).1.key_queue_length = QUKEYS_QUEUE_MAX - 1 := by
        rw [v2_flushKey_fst_len, hf]
      have hcap : QUKEYS_QUEUE_MAX = 8 := rfl
      omega
    · have h2 : (V2.enqueue c s a now).1.key_queue_length =
          s.key_queue_length + 1 := by
        rw [V2.enqueue, if_neg hf]
      rw [h2]
      omega

/-- A sample part_001 context with qukeys at addresses 5 and 6. -/
def exOverflowCtx : V2.Ctx :=
  ⟨[⟨0, 5, 9⟩, ⟨0, 6, 11⟩], fun _ => 0, fun _ => 100, 200, true⟩

/-- A sample part_001 state with a full queue: a qukey at the head, a
non-qukey behind it, then qukeys. -/
def exOverflowState : V2.State :=
  ⟨fun i => if i = 0 then ⟨5, 50⟩ else if i = 1 then ⟨7, 60⟩ else ⟨6, 70⟩,
   8, fun _ => false, fun _ => false⟩

/-- Claim C3 counterexample on the part_001 revision: enqueuing into this
full queue force-resolves two entries (the qukey head and then the
non-qukey that reaches the head), not exactly the oldest one. -/
theorem c3_part001_overflow_flushes_more_than_head :
    exOverflowState.key_queue_length = QUKEYS_QUEUE_MAX ∧
    (V2.enqueue exOverflowCtx exOverflowState 20 0).2.length = 2 := by
  decide

theorem c3_enqueue_overflow_evicts_head_and_bounds_length_witness :
    (V1.enqueue exCtxV1
        ⟨[], fun _ => ⟨3, 10⟩, 8⟩ 5 100).2.map V1.FlushTrace.summary =
      [(⟨3, 10⟩, V1.QUKEY_STATE_PRIMARY, pressedHeld)] ∧
    (V1.enqueue exCtxV1
        ⟨[], fun _ => ⟨3, 10⟩, 8⟩ 5 100).1.key_queue_length =
      QUKEYS_QUEUE_MAX := by
  obtain ⟨h1, h2⟩ :=
    c3_enqueue_overflow_evicts_head_and_bounds_length.1 exCtxV1
      ⟨[], fun _ => ⟨3, 10⟩, 8⟩ 5 100 rfl
  exact ⟨h1, h2⟩

theorem v1_enqueue_appends (c : V1.Ctx) (s : V1.State) (a now : Nat) :
    (V1.enqueue c s a now).1.key_queue
        ((V1.enqueue c s a now).1.key_queue_length - 1) =
      ⟨a, now + c.time_limit⟩ ∧
    1 ≤ (V1.enqueue c s a now).1.key_queue_length := by
  by_cases hf : s.key_queue_length = QUKEYS_QUEUE_MAX
  · rw [V1.enqueue, if_pos hf]
    exact ⟨by simp, by simp⟩
  · rw [V1.enqueue, if_neg hf]
    exact ⟨by simp, by simp⟩

theorem v2_enqueue_appends (c : V2.Ctx) (s : V2.State) (a now : Nat) :
    (V2.enqueue c s a now).1.key_queue
        ((V2.enqueue c s a now).1.key_queue_length - 1) =
      ⟨a, now + c.time_limit⟩ ∧
    1 ≤ (V2.enqueue c s a now).1.key_queue_length := by
  by_cases hf : s.key_queue_length = QUKEYS_QUEUE_MAX
  · rw [V2.enqueue, if_pos hf]
    exact ⟨by simp, by simp⟩
  · rw [V2.enqueue, if_neg hf]
    exact ⟨by simp, by simp⟩

theorem v2_eventHandlerHook_toggledOn (c : V2.Ctx) (s : V2.State)
    (mapped key_addr now : Nat) (k : KeyswitchState)
    (hact : c.active = true) (hinj : k.injected = false)
    (hon : keyToggledOn k = true)
    (hkq : ¬ (s.key_queue_length = 0 ∧ V2.lookupQukey c key_addr = none)) :
    V2.eventHandlerHook c s mapped key_addr k now =
      ((V2.enqueue c s key_addr now).1, false, Key_NoKey,
        (V2.enqueue c s key_addr now).2) := by
  obtain ⟨p, w, inj⟩ := k
  simp only [keyToggledOn, Bool.and_eq_true, Bool.not_eq_true'] at hon
  obtain ⟨hp, hw⟩ := hon
  subst hp hw hinj
  simp [V2.eventHandlerHook, hact, hkq, keyToggledOn, keyIsPressed,
    keyWasPressed]

theorem v1_keyScanHook_toggledOn (c : V1.Ctx) (s : V1.State)
    (mapped key_addr now : Nat) (k : KeyswitchState)
    (hact : c.active = true) (hinj : k.injected = false)
    (hon : keyToggledOn k = true)
    (hkq : ¬ (s.key_queue_length = 0 ∧
      V1.lookupQukey c s key_addr = none)) :
    V1.keyScanHook c s mapped key_addr k now =
      V1.keyScanCont c (V1.enqueue c s key_addr now).1 mapped key_addr k
        (V1.lookupQukey c s key_addr) (V1.enqueue c s key_addr now).2 := by
  obtain ⟨p, w, inj⟩ := k
  simp only [keyToggledOn, Bool.and_eq_true, Bool.not_eq_true'] at hon
  obtain ⟨hp, hw⟩ := hon
  subst hp hw hinj
  by_cases hlen : s.key_queue_length = 0
  · have hqk : ¬ V1.lookupQukey c s key_addr = none := fun h => hkq ⟨hlen, h⟩
    simp [V1.keyScanHook, hact, hlen, hqk, keyToggledOn, keyIsPressed,
      keyWasPressed]
  · simp [V1.keyScanHook, hact, hlen, keyToggledOn, keyIsPressed,
      keyWasPressed]

theorem v1_searchQueue_after_enqueue (c : V1.Ctx) (s : V1.State)
    (a now : Nat) :
    V1.searchQueue (V1.enqueue c s a now).1 a ≠ none := by
  intro hnone
  obtain ⟨happ, hpos⟩ := v1_enqueue_appends c s a now
  have hmem : (V1.enqueue c s a now).1.key_queue_length - 1 ∈
      List.range (V1.enqueue c s a now).1.key_queue_length :=
    List.mem_range.mpr (by omega)
  have := List.find?_eq_none.mp hnone _ hmem
  rw [happ] at this
  simp at this

/-- Claim C5 (amended): in the part_001 revision every non-injected
toggled-on event that misses the fast path is enqueued and suppressed, as
claimed.  In the Qukeys.cpp revision the event is always enqueued, but it
is suppressed only when the pressed address is not a registered qukey or
its stored resolution state (after the possible overflow eviction) is
still undetermined; a qukey whose stale state is already resolved has its
resolved code emitted in the same cycle. -/
theorem c5_toggled_on_enqueue_and_suppress :
    (∀ (c : V2.Ctx) (s : V2.State) (mapped key_addr now : Nat)
        (k : KeyswitchState),
      c.active = true → k.injected = false → keyToggledOn k = true →
      ¬ (s.key_queue_length = 0 ∧ V2.lookupQukey c key_addr = none) →
      V2.eventHandlerHook c s mapped key_addr k now =
        ((V2.enqueue c s key_addr now).1, false, Key_NoKey,
          (V2.enqueue c s key_addr now).2) ∧
      (V2.eventHandlerHook c s mapped key_addr k now).1.key_queue
          ((V2.eventHandlerHook c s mapped key_addr k now).1.key_queue_length
            - 1) = ⟨key_addr, now + c.time_limit⟩) ∧
    (∀ (c : V1.Ctx) (s : V1.State) (mapped key_addr now : Nat)
        (k : KeyswitchState),
      c.active = true → k.injected = false → keyToggledOn k = true →
      ¬ (s.key_queue_length = 0 ∧ V1.lookupQukey c s key_addr = none) →
      (∀ i, V1.lookupQukey c s key_addr = some i →
        (V1.getQukey (V1.enqueue c s key_addr now).1.qukeys i).state =
          V1.QUKEY_STATE_UNDETERMINED) →
      V1.keyScanHook c s mapped key_addr k now =
        ((V1.enqueue c s key_addr now).1, Key_NoKey,
          (V1.enqueue c s key_addr now).2) ∧
      (V1.keyScanHook c s mapped key_addr k now).1.key_queue
          ((V1.keyScanHook c s mapped key_addr k now).1.key_queue_length
            - 1) = ⟨key_addr, now + c.time_limit⟩) := by
  constructor
  · intro c s mapped key_addr now k hact hinj hon hkq
    have hh := v2_eventHandlerHook_toggledOn c s mapped key_addr now k hact
      hinj hon hkq
    refine ⟨hh, ?_⟩
    rw [hh]
    exact (v2_enqueue_appends c s key_addr now).1
  · intro c s mapped key_addr now k hact hinj hon hkq hstate
    have hh := v1_keyScanHook_toggledOn c s mapped key_addr now k hact hinj
      hon hkq
    have hoff : keyToggledOff k = false := by
      obtain ⟨p, w, inj⟩ := k
      simp only [keyToggledOn, Bool.and_eq_true, Bool.not_eq_true'] at hon
      obtain ⟨hp, hw⟩ := hon
      subst hp hw
      rfl
    have hsq := v1_searchQueue_after_enqueue c s key_addr now
    have hcont : V1.keyScanCont c (V1.enqueue c s key_addr now).1 mapped
        key_addr k (V1.lookupQukey c s key_addr)
        (V1.enqueue c s key_addr now).2 =
        ((V1.enqueue c s key_addr now).1, Key_NoKey,
          (V1.enqueue c s key_addr now).2) := by
      rw [V1.keyScanCont.eq_def]
      rw [hoff]
      cases hqi : V1.lookupQukey c s key_addr with
      | none =>
        cases hsq2 : V1.searchQueue (V1.enqueue c s key_addr now).1
            key_addr with
        | none => exact absurd hsq2 hsq
        | some j => simp
      | some i =>
        have hu := hstate i hqi
        simp [hu, V1.QUKEY_STATE_UNDETERMINED, V1.QUKEY_STATE_PRIMARY,
          V1.QUKEY_STATE_ALTERNATE]
    rw [hh, hcont]
    refine ⟨rfl, ?_⟩
    exact (v1_enqueue_appends c s key_addr now).1

/-- A sample Qukeys.cpp state whose only qukey (address 5, alternate code
9) still carries a stale resolved-alternate state, with an empty queue. -/
def exStaleV1 : V1.State :=
  ⟨[⟨0, 5, 9, V1.QUKEY_STATE_ALTERNATE⟩], fun _ => ⟨QUKEY_UNKNOWN_ADDR, 0⟩, 0⟩

/-- Claim C5 counterexample on the Qukeys.cpp revision: a toggled-on event
of a registered qukey whose stored state is still resolved-alternate is
enqueued yet NOT suppressed — the hook returns the alternate code 9
instead of `Key_NoKey`, so a code is emitted in the same cycle. -/
theorem c5_cpp_toggled_on_emits_stale_alternate :
    V1.lookupQukey exCtxV1 exStaleV1 5 = some 0 ∧
    (V1.keyScanHook exCtxV1 exStaleV1 7 5 ⟨true, false, false⟩ 0).2.1 = 9 ∧
    (V1.keyScanHook exCtxV1 exStaleV1 7 5 ⟨true, false, false⟩ 0).2.1 ≠
      Key_NoKey ∧
    (V1.keyScanHook exCtxV1 exStaleV1 7 5
        ⟨true, false, false⟩ 0).1.key_queue_length = 1 := by
  decide

theorem c5_toggled_on_enqueue_and_suppress_witness :
    (V2.eventHandlerHook exSweepCtx
        ⟨fun _ => ⟨QUKEY_UNKNOWN_ADDR, 0⟩, 0, fun _ => false, fun _ => false⟩
        7 5 ⟨true, false, false⟩ 0).2.1 = false ∧
    (V2.eventHandlerHook exSweepCtx
        ⟨fun _ => ⟨QUKEY_UNKNOWN_ADDR, 0⟩, 0, fun _ => false, fun _ => false⟩
        7 5 ⟨true, false, false⟩ 0).2.2.1 = Key_NoKey := by
  obtain ⟨h1, _⟩ :=
    c5_toggled_on_enqueue_and_suppress.1 exSweepCtx
      ⟨fun _ => ⟨QUKEY_UNKNOWN_ADDR, 0⟩, 0, fun _ => false, fun _ => false⟩
      7 5 0 ⟨true, false, false⟩ rfl rfl rfl (by decide)
  rw [h1]
  exact ⟨rfl, rfl⟩

theorem findIdx?_go_some_lt {α : Type} (p : α → Bool) :
    ∀ (l : List α) (st i : Nat), List.findIdx? p l st = some i →
      i < st + l.length := by
  intro l
  induction l with
  | nil => intro st i h; simp [List.findIdx?] at h
  | cons a xs ih =>
    intro st i h
    rw [List.findIdx?] at h
    by_cases hp : p a
    · rw [if_pos hp] at h
      cases h
      simp
    · rw [if_neg hp] at h
      have := ih (st + 1) i h
      simp only [List.length_cons]
      omega

theorem findIdx?_some_lt_length {α : Type} (p : α → Bool) (l : List α)
    (i : Nat) (h : l.findIdx? p = some i) : i < l.length := by
  have := findIdx?_go_some_lt p l 0 i h
  omega

theorem v1_lookupQukey_lt_length (c : V1.Ctx) (s : V1.State) (a i : Nat)
    (h : V1.lookupQukey c s a = some i) : i < s.qukeys.length := by
  rw [V1.lookupQukey] at h
  by_cases ha : a = QUKEY_UNKNOWN_ADDR
  · rw [if_pos ha] at h; cases h
  · rw [if_neg ha] at h
    exact findIdx?_some_lt_length _ _ _ h

theorem v1_getQukey_setState (st : Nat) :
    ∀ (qs : List V1.Qukey) (i : Nat), i < qs.length →
      (V1.getQukey (V1.setState qs i st) i).state = st := by
  intro qs
  induction qs with
  | nil => intro i h; simp at h
  | cons q rest ih =>
    intro i h
    match i with
    | 0 => rfl
    | i + 1 =>
      have := ih i (by simpa using Nat.lt_of_succ_lt_succ h)
      simpa [V1.setState, V1.getQukey] using this

/-- Claim C7 (amended): in the Qukeys.cpp revision the release of a
registered qukey that is no longer in the queue resets its stored
resolution state to undetermined and passes the release through; in the
part_001 revision the same release passes through but writes nothing — the
stored per-address resolution state persists unchanged. -/
theorem c7_release_reset_of_resolved_qukey :
    (∀ (c : V1.Ctx) (s : V1.State) (mapped key_addr now i : Nat)
        (k : KeyswitchState),
      c.active = true → k.injected = false → keyToggledOff k = true →
      V1.searchQueue s key_addr = none →
      V1.lookupQukey c s key_addr = some i →
      V1.keyScanHook c s mapped key_addr k now =
        (⟨V1.setState s.qukeys i V1.QUKEY_STATE_UNDETERMINED, s.key_queue,
          s.key_queue_length⟩, mapped, []) ∧
      (V1.getQukey (V1.keyScanHook c s mapped key_addr k now).1.qukeys
          i).state = V1.QUKEY_STATE_UNDETERMINED) ∧
    (∀ (c : V2.Ctx) (s : V2.State) (mapped key_addr now : Nat)
        (k : KeyswitchState),
      c.active = true → k.injected = false → keyToggledOff k = true →
      V2.searchQueue s key_addr = none →
      V2.eventHandlerHook c s mapped key_addr k now =
        (s, true, mapped, [])) := by
  constructor
  · intro c s mapped key_addr now i k hact hinj hoff hsq hqi
    have hlt := v1_lookupQukey_lt_length c s key_addr i hqi
    obtain ⟨p, w, inj⟩ := k
    simp only [keyToggledOff, Bool.and_eq_true, Bool.not_eq_true'] at hoff
    obtain ⟨hp, hw⟩ := hoff
    subst hp hw hinj
    have hh : V1.keyScanHook c s mapped key_addr ⟨false, true, false⟩ now =
        (⟨V1.setState s.qukeys i V1.QUKEY_STATE_UNDETERMINED, s.key_queue,
          s.key_queue_length⟩, mapped, []) := by
      simp [V1.keyScanHook, V1.keyScanCont, hact, hsq, hqi, keyToggledOn,
        keyToggledOff, keyIsPressed, keyWasPressed]
    refine ⟨hh, ?_⟩
    rw [hh]
    exact v1_getQukey_setState _ s.qukeys i hlt
  · intro c s mapped key_addr now k hact hinj hoff hsq
    obtain ⟨p, w, inj⟩ := k
    simp only [keyToggledOff, Bool.and_eq_true, Bool.not_eq_true'] at hoff
    obtain ⟨hp, hw⟩ := hoff
    subst hp hw hinj
    simp [V2.eventHandlerHook, hact, hsq, keyToggledOn, keyToggledOff,
      keyIsPressed, keyWasPressed]

/-- A sample part_001 state whose per-address store still records the
alternate resolution of the qukey at address 5, with an empty queue. -/
def exResolvedV2 : V2.State :=
  ⟨fun _ => ⟨QUKEY_UNKNOWN_ADDR, 0⟩, 0, fun a => a = 5, fun _ => false⟩

/-- Claim C7 counterexample on the part_001 revision: address 5 is a
registered qukey, resolved alternate, not in the queue; its toggled-off
event passes through but its stored resolution state is NOT reset — it
still reads resolved-alternate afterwards. -/
theorem c7_part001_release_keeps_resolved_state :
    V2.lookupQukey exSweepCtx 5 = some 0 ∧
    V2.searchQueue exResolvedV2 5 = none ∧
    V2.getQukeyState exResolvedV2 5 = V2.QUKEY_STATE_ALTERNATE ∧
    V2.getQukeyState
      (V2.eventHandlerHook exSweepCtx exResolvedV2 7 5
        wasPressedOnly 0).1 5 = V2.QUKEY_STATE_ALTERNATE := by
  decide

/-- A sample Qukeys.cpp state whose qukey at address 5 is resolved
alternate, with an empty queue. -/
theorem c7_release_reset_of_resolved_qukey_witness :
    (V1.getQukey (V1.keyScanHook exCtxV1 exStaleV1 7 5
        wasPressedOnly 0).1.qukeys 0).state =
      V1.QUKEY_STATE_UNDETERMINED ∧
    (V1.keyScanHook exCtxV1 exStaleV1 7 5 wasPressedOnly 0).2.1 = 7 := by
  obtain ⟨h1, h2⟩ :=
    c7_release_reset_of_resolved_qukey.1 exCtxV1 exStaleV1 7 5 0 0
      wasPressedOnly rfl rfl rfl (by decide) (by decide)
  exact ⟨h2, by rw [h1]⟩

theorem v1_flushKey_emits (c : V1.Ctx) (s : V1.State) (r : Nat)
    (k : KeyswitchState) :
    (V1.flushKey c s r k).2.emits =
      [Emit.keyEvent (V1.flushKey c s r k).2.keycode
        (s.key_queue 0).addr injectedPress,
       Emit.sendReport] := rfl

theorem v2_flushKey_emits (c : V2.Ctx) (s : V2.State) (r : Bool)
    (k : KeyswitchState) :
    (V2.flushKey c s r k).2.emits =
      [Emit.keyEvent (V2.flushKey c s r k).2.keycode
        (s.key_queue 0).addr injectedPress,
       Emit.sendReport] ++
      (if !keyToggledOn k then
        [Emit.keyEvent (V2.flushKey c s r k).2.keycode
          (s.key_queue 0).addr injectedHeld]
      else []) := rfl

/-- Claim C8 (amended): after the intermediate report is sent and the
shielded report restored, the part_001 `flushKey` injects a
pressed-and-held event (`IS_PRESSED | WAS_PRESSED | INJECTED`) for the
resolved code whenever the keyswitch condition is not a toggle-on — which
holds for both conditions its callers use, so also, but not only, when the
key had toggled off while queued; no release event is ever injected by
either revision's `flushKey`, and the Qukeys.cpp revision injects nothing
at all after the restore. -/
theorem c8_post_restore_reinjection_is_held_press_not_release :
    (∀ (c : V2.Ctx) (s : V2.State) (r : Bool) (k : KeyswitchState),
      keyToggledOn k = false →
      (V2.flushKey c s r k).2.emits =
        [Emit.keyEvent (V2.flushKey c s r k).2.keycode
          (s.key_queue 0).addr injectedPress,
         Emit.sendReport,
         Emit.keyEvent (V2.flushKey c s r k).2.keycode
          (s.key_queue 0).addr injectedHeld]) ∧
    (keyToggledOn pressedHeld = false ∧ keyToggledOn wasPressedOnly = false ∧
      keyToggledOff injectedHeld = false ∧ injectedHeld.injected = true) ∧
    (∀ (c : V2.Ctx) (s : V2.State) (r : Bool) (k : KeyswitchState),
      ∀ e ∈ (V2.flushKey c s r k).2.emits, emitIsRelease e = false) ∧
    (∀ (c : V1.Ctx) (s : V1.State) (r : Nat) (k : KeyswitchState),
      (V1.flushKey c s r k).2.emits =
        [Emit.keyEvent (V1.flushKey c s r k).2.keycode
          (s.key_queue 0).addr injectedPress,
         Emit.sendReport]) := by
  refine ⟨?_, by decide, ?_, v1_flushKey_emits⟩
  · intro c s r k hk
    rw [v2_flushKey_emits, hk]
    rfl
  · intro c s r k e he
    rw [v2_flushKey_emits] at he
    rcases List.mem_append.mp he with h | h
    · simp only [List.mem_cons, List.not_mem_nil, or_false] at h
      rcases h with h | h <;> subst h <;> rfl
    · by_cases hk : (!keyToggledOn k) = true
      · rw [if_pos hk] at h
        simp only [List.mem_singleton] at h
        subst h; rfl
      · rw [if_neg hk] at h
        simp at h

/-- A sample part_001 state with a single queued qukey entry. -/
def exFlushV2 : V2.State := ⟨fun _ => ⟨5, 50⟩, 1, fun _ => false, fun _ => false⟩

/-- Claim C8 counterexample: resolving a key that had toggled off while
queued (`WAS_PRESSED` condition) injects three external calls, none of
which is a release — the post-restore injection is a pressed-and-held
event, and the Qukeys.cpp revision injects nothing after the restore at
all. -/
theorem c8_no_release_event_on_press_release_resolution :
    keyToggledOff wasPressedOnly = true ∧
    (V2.flushKey exSweepCtx exFlushV2 true wasPressedOnly).2.emits =
      [Emit.keyEvent 9 5 injectedPress, Emit.sendReport,
       Emit.keyEvent 9 5 injectedHeld] ∧
    (∀ e ∈ (V2.flushKey exSweepCtx exFlushV2 true wasPressedOnly).2.emits,
      emitIsRelease e = false) ∧
    (V1.flushKey exCtxV1 exStateV1 V1.QUKEY_STATE_PRIMARY
      wasPressedOnly).2.emits.length = 2 := by
  decide

theorem c8_post_restore_reinjection_witness :
    (V2.flushKey exSweepCtx exFlushV2 true pressedHeld).2.emits =
      [Emit.keyEvent
        (V2.flushKey exSweepCtx exFlushV2 true pressedHeld).2.keycode
        (exFlushV2.key_queue 0).addr injectedPress,
       Emit.sendReport,
       Emit.keyEvent
        (V2.flushKey exSweepCtx exFlushV2 true pressedHeld).2.keycode
        (exFlushV2.key_queue 0).addr injectedHeld] :=
  c8_post_restore_reinjection_is_held_press_not_release.1 exSweepCtx
    exFlushV2 true pressedHeld rfl

instance v1SortedQDecidable (s : V1.State) : Decidable (V1.SortedQ s) :=
  inferInstanceAs (Decidable (∀ j, j < s.key_queue_length → ∀ i, i ≤ j →
    (s.key_queue i).flush_time ≤ (s.key_queue j).flush_time))

instance v2SortedQDecidable (s : V2.State) : Decidable (V2.SortedQ s) :=
  inferInstanceAs (Decidable (∀ j, j < s.key_queue_length → ∀ i, i ≤ j →
    (s.key_queue i).flush_time ≤ (s.key_queue j).flush_time))

theorem v1_flushKey_sorted (c : V1.Ctx) (s : V1.State) (r : Nat)
    (k : KeyswitchState) (h : V1.SortedQ s) :
    V1.SortedQ (V1.flushKey c s r k).1 := by
  intro j hj i hij
  rw [v1_flushKey_fst_len] at hj
  rw [v1_flushKey_fst_queue c s r k i (by omega),
    v1_flushKey_fst_queue c s r k j (by omega)]
  exact h (j + 1) (by omega) (i + 1) (by omega)

theorem v2_flushKey_sorted (c : V2.Ctx) (s : V2.State) (r : Bool)
    (k : KeyswitchState) (h : V2.SortedQ s) :
    V2.SortedQ (V2.flushKey c s r k).1 := by
  intro j hj i hij
  rw [v2_flushKey_fst_len] at hj
  rw [v2_flushKey_fst_queue c s r k i (by omega),
    v2_flushKey_fst_queue c s r k j (by omega)]
  exact h (j + 1) (by omega) (i + 1) (by omega)

theorem v1_enqueue_sorted (c : V1.Ctx) (s : V1.State) (a now : Nat)
    (h : V1.SortedQ s)
    (hd : ∀ i, i < s.key_queue_length →
      (s.key_queue i).flush_time ≤ now + c.time_limit) :
    V1.SortedQ (V1.enqueue c s a now).1 := by
  by_cases hf : s.key_queue_length = QUKEYS_QUEUE_MAX
  all_goals
    first
    | (have hs1 : (V1.enqueue c s a now).1 =
          ⟨(V1.flushKey c s V1.QUKEY_STATE_PRIMARY pressedHeld).1.qukeys,
           Function.update
             (V1.flushKey c s V1.QUKEY_STATE_PRIMARY pressedHeld).1.key_queue
             (V1.flushKey c s V1.QUKEY_STATE_PRIMARY
               pressedHeld).1.key_queue_length
             ⟨a, now + c.time_limit⟩,
           (V1.flushKey c s V1.QUKEY_STATE_PRIMARY
             pressedHeld).1.key_queue_length + 1⟩ := by
        rw [V1.enqueue, if_pos hf])
    | (have hs1 : (V1.enqueue c s a now).1 =
          ⟨s.qukeys,
           Function.update s.key_queue s.key_queue_length
             ⟨a, now + c.time_limit⟩,
           s.key_queue_length + 1⟩ := by
        rw [V1.enqueue, if_neg hf])
  · -- full queue: evict then append
    have hsor := v1_flushKey_sorted c s V1.QUKEY_STATE_PRIMARY pressedHeld h
    have hbnd : ∀ i,
        i < (V1.flushKey c s V1.QUKEY_STATE_PRIMARY
          pressedHeld).1.key_queue_length →
        ((V1.flushKey c s V1.QUKEY_STATE_PRIMARY
          pressedHeld).1.key_queue i).flush_time ≤ now + c.time_limit := by
      intro i hi
      rw [v1_flushKey_fst_len] at hi
      rw [v1_flushKey_fst_queue c s _ _ i (by omega)]
      exact hd (i + 1) (by omega)
    intro j hj i hij
    rw [hs1] at hj ⊢
    simp only [Function.update_apply] at *
    split_ifs with h1 h2 h2
    · exact le_refl _
    · omega
    · exact hbnd i (by omega)
    · exact hsor j (by omega) i hij
  · -- non-full queue: plain append
    intro j hj i hij
    rw [hs1] at hj ⊢
    simp only [Function.update_apply] at *
    split_ifs with h1 h2 h2
    · exact le_refl _
    · omega
    · exact hd i (by omega)
    · exact h j (by omega) i hij

theorem v2_flushQueueAll_sorted_bound (c : V2.Ctx) (B : Nat) :
    ∀ (fuel : Nat) (s : V2.State),
      (V2.SortedQ s → V2.SortedQ (V2.flushQueueAll c fuel s).1) ∧
      ((∀ i, i < s.key_queue_length →
          (s.key_queue i).flush_time ≤ B) →
        ∀ i, i < (V2.flushQueueAll c fuel s).1.key_queue_length →
          ((V2.flushQueueAll c fuel s).1.key_queue i).flush_time ≤ B) := by
  intro fuel
  induction fuel with
  | zero =>
    intro s
    constructor
    · intro h; simpa [V2.flushQueueAll] using h
    · intro h; simpa [V2.flushQueueAll] using h
  | succ fuel ih =>
    intro s
    by_cases hg : s.key_queue_length > 0 ∧
        V2.lookupQukey c (s.key_queue 0).addr = none
    · have hs1 : (V2.flushQueueAll c (fuel + 1) s).1 =
          (V2.flushQueueAll c fuel
            (V2.flushKey c s V2.QUKEY_STATE_PRIMARY pressedHeld).1).1 := by
        rw [V2.flushQueueAll, if_pos hg]
      obtain ⟨ih1, ih2⟩ :=
        ih (V2.flushKey c s V2.QUKEY_STATE_PRIMARY pressedHeld).1
      constructor
      · intro h
        rw [hs1]
        exact ih1 (v2_flushKey_sorted c s _ _ h)
      · intro h
        rw [hs1]
        refine ih2 ?_
        intro i hi
        rw [v2_flushKey_fst_len] at hi
        rw [v2_flushKey_fst_queue c s _ _ i (by omega)]
        exact h (i + 1) (by omega)
    · have hs1 : (V2.flushQueueAll c (fuel + 1) s).1 = s := by
        rw [V2.flushQueueAll, if_neg hg]
      rw [hs1]
      exact ⟨fun h => h, fun h => h⟩

theorem v2_enqueue_sorted (c : V2.Ctx) (s : V2.State) (a now : Nat)
    (h : V2.SortedQ s)
    (hd : ∀ i, i < s.key_queue_length →
      (s.key_queue i).flush_time ≤ now + c.time_limit) :
    V2.SortedQ (V2.enqueue c s a now).1 := by
  by_cases hf : s.key_queue_length = QUKEYS_QUEUE_MAX
  · have hs1 : (V2.enqueue c s a now).1 =
        ⟨Function.update
           (V2.flushQueueAll c
             (V2.flushKey c s V2.QUKEY_STATE_PRIMARY
               pressedHeld).1.key_queue_length
             (V2.flushKey c s V2.QUKEY_STATE_PRIMARY pressedHeld).1).1.key_queue
           (V2.flushQueueAll c
             (V2.flushKey c s V2.QUKEY_STATE_PRIMARY
               pressedHeld).1.key_queue_length
             (V2.flushKey c s V2.QUKEY_STATE_PRIMARY
               pressedHeld).1).1.key_queue_length
           ⟨a, now + c.time_limit⟩,
         (V2.flushQueueAll c
           (V2.flushKey c s V2.QUKEY_STATE_PRIMARY
             pressedHeld).1.key_queue_length
           (V2.flushKey c s V2.QUKEY_STATE_PRIMARY
             pressedHeld).1).1.key_queue_length + 1,
         (V2.flushQueueAll c
           (V2.flushKey c s V2.QUKEY_STATE_PRIMARY
             pressedHeld).1.key_queue_length
           (V2.flushKey c s V2.QUKEY_STATE_PRIMARY
             pressedHeld).1).1.qukey_state,
         Function.update
           (V2.flushQueueAll c
             (V2.flushKey c s V2.QUKEY_STATE_PRIMARY
               pressedHeld).1.key_queue_length
             (V2.flushKey c s V2.QUKEY_STATE_PRIMARY pressedHeld).1).1.masked
           a true⟩ := by
      rw [V2.enqueue, if_pos hf]
    obtain ⟨hall1, hall2⟩ :=
      v2_flushQueueAll_sorted_bound c (now + c.time_limit)
        (V2.flushKey c s V2.QUKEY_STATE_PRIMARY pressedHeld).1.key_queue_length
        (V2.flushKey c s V2.QUKEY_STATE_PRIMARY pressedHeld).1
    have hsor := hall1 (v2_flushKey_sorted c s _ _ h)
    have hbnd := hall2 (by
      intro i hi
      rw [v2_flushKey_fst_len] at hi
      rw [v2_flushKey_fst_queue c s _ _ i (by omega)]
      exact hd (i + 1) (by omega))
    intro j hj i hij
    rw [hs1] at hj ⊢
    simp only [Function.update_apply] at *
    split_ifs with h1 h2 h2
    · exact le_refl _
    · omega
    · exact hbnd i (by omega)
    · exact hsor j (by omega) i hij
  · have hs1 : (V2.enqueue c s a now).1 =
        ⟨Function.update s.key_queue s.key_queue_length
           ⟨a, now + c.time_limit⟩,
         s.key_queue_length + 1, s.qukey_state,
         Function.update s.masked a true⟩ := by
      rw [V2.enqueue, if_neg hf]
    intro j hj i hij
    rw [hs1] at hj ⊢
    simp only [Function.update_apply] at *
    split_ifs with h1 h2 h2
    · exact le_refl _
    · omega
    · exact hd i (by omega)
    · exact h j (by omega) i hij

theorem v1_flushQueueLoop_sorted (c : V1.Ctx) :
    ∀ (n : Nat) (s : V1.State), V1.SortedQ s →
      V1.SortedQ (V1.flushQueueLoop c n s).1 := by
  intro n
  induction n with
  | zero => intro s h; simpa [V1.flushQueueLoop] using h
  | succ n ih =>
    intro s h
    by_cases h0 : s.key_queue_length = 0
    · have hs1 : (V1.flushQueueLoop c (n + 1) s).1 = s := by
        rw [V1.flushQueueLoop, if_pos h0]
      rw [hs1]; exact h
    · have hs1 : (V1.flushQueueLoop c (n + 1) s).1 =
          (V1.flushQueueLoop c n
            (V1.flushKey c s V1.QUKEY_STATE_ALTERNATE pressedHeld).1).1 := by
        rw [V1.flushQueueLoop, if_neg h0]
      rw [hs1]
      exact ih _ (v1_flushKey_sorted c s _ _ h)

theorem v2_flushQueueLoop_sorted (c : V2.Ctx) :
    ∀ (n : Nat) (s : V2.State), V2.SortedQ s →
      V2.SortedQ (V2.flushQueueLoop c n s).1 := by
  intro n
  induction n with
  | zero => intro s h; simpa [V2.flushQueueLoop] using h
  | succ n ih =>
    intro s h
    by_cases h0 : s.key_queue_length = 0
    · have hs1 : (V2.flushQueueLoop c (n + 1) s).1 = s := by
        rw [V2.flushQueueLoop, if_pos h0]
      rw [hs1]; exact h
    · have hs1 : (V2.flushQueueLoop c (n + 1) s).1 =
          (V2.flushQueueLoop c n
            (V2.flushKey c s V2.QUKEY_STATE_ALTERNATE pressedHeld).1).1 := by
        rw [V2.flushQueueLoop, if_neg h0]
      rw [hs1]
      exact ih _ (v2_flushKey_sorted c s _ _ h)

theorem v1_flushQueue_sorted (c : V1.Ctx) (s : V1.State)
    (index : Option Nat) (h : V1.SortedQ s) :
    V1.SortedQ (V1.flushQueue c s index).1 := by
  cases index with
  | none => simpa [V1.flushQueue] using h
  | some idx =>
    have hs1 : (V1.flushQueue c s (some idx)).1 =
        (V1.flushKey c (V1.flushQueueLoop c idx s).1 V1.QUKEY_STATE_PRIMARY
          wasPressedOnly).1 := by
      rw [V1.flushQueue]
    rw [hs1]
    exact v1_flushKey_sorted c _ _ _ (v1_flushQueueLoop_sorted c idx s h)

theorem v2_flushQueue_sorted (c : V2.Ctx) (s : V2.State)
    (index : Option Nat) (h : V2.SortedQ s) :
    V2.SortedQ (V2.flushQueue c s index).1 := by
  cases index with
  | none => simpa [V2.flushQueue] using h
  | some idx =>
    have hs1 : (V2.flushQueue c s (some idx)).1 =
        (V2.flushKey c (V2.flushQueueLoop c idx s).1 V2.QUKEY_STATE_PRIMARY
          wasPressedOnly).1 := by
      rw [V2.flushQueue]
    rw [hs1]
    exact v2_flushKey_sorted c _ _ _ (v2_flushQueueLoop_sorted c idx s h)

theorem v1_preReportLoop_sorted (c : V1.Ctx) (now : Nat) :
    ∀ (fuel i : Nat) (s : V1.State), V1.SortedQ s →
      V1.SortedQ (V1.preReportLoop c now fuel i s).1 := by
  intro fuel
  induction fuel with
  | zero => intro i s h; simpa [V1.preReportLoop] using h
  | succ fuel ih =>
    intro i s h
    by_cases hi : i < s.key_queue_length
    · by_cases ht : now > (s.key_queue i).flush_time
      · have hs1 : (V1.preReportLoop c now (fuel + 1) i s).1 =
            (V1.preReportLoop c now fuel (i + 1)
              (V1.flushKey c s V1.QUKEY_STATE_ALTERNATE pressedHeld).1).1 := by
          rw [V1.preReportLoop, if_pos hi, if_pos ht]
        rw [hs1]
        exact ih _ _ (v1_flushKey_sorted c s _ _ h)
      · have hs1 : (V1.preReportLoop c now (fuel + 1) i s).1 = s := by
          rw [V1.preReportLoop, if_pos hi, if_neg ht]
        rw [hs1]; exact h
    · have hs1 : (V1.preReportLoop c now (fuel + 1) i s).1 = s := by
        rw [V1.preReportLoop, if_neg hi]
      rw [hs1]; exact h

theorem v1_preReportHook_sorted (c : V1.Ctx) (s : V1.State) (now : Nat)
    (h : V1.SortedQ s) : V1.SortedQ (V1.preReportHook c s now).1 :=
  v1_preReportLoop_sorted c now s.key_queue_length 0 s h

theorem v2_preReportLoop_sorted (c : V2.Ctx) (now : Nat) :
    ∀ (fuel : Nat) (s : V2.State), V2.SortedQ s →
      V2.SortedQ (V2.preReportLoop c now fuel s).1 := by
  intro fuel
  induction fuel with
  | zero => intro s h; simpa [V2.preReportLoop] using h
  | succ fuel ih =>
    intro s h
    by_cases h0 : s.key_queue_length = 0
    · have hs1 : (V2.preReportLoop c now (fuel + 1) s).1 = s := by
        rw [V2.preReportLoop, if_pos h0]
      rw [hs1]; exact h
    · by_cases hl : V2.lookupQukey c (s.key_queue 0).addr = none
      · have hs1 : (V2.preReportLoop c now (fuel + 1) s).1 =
            (V2.preReportLoop c now fuel
              (V2.flushKey c s V2.QUKEY_STATE_PRIMARY pressedHeld).1).1 := by
          rw [V2.preReportLoop, if_neg h0, if_pos hl]
        rw [hs1]
        exact ih _ (v2_flushKey_sorted c s _ _ h)
      · by_cases ht : now > (s.key_queue 0).flush_time
        · have hs1 : (V2.preReportLoop c now (fuel + 1) s).1 =
              (V2.preReportLoop c now fuel
                (V2.flushKey c s V2.QUKEY_STATE_ALTERNATE pressedHeld).1).1 := by
            rw [V2.preReportLoop, if_neg h0, if_neg hl, if_pos ht]
          rw [hs1]
          exact ih _ (v2_flushKey_sorted c s _ _ h)
        · have hs1 : (V2.preReportLoop c now (fuel + 1) s).1 = s := by
            rw [V2.preReportLoop, if_neg h0, if_neg hl, if_neg ht]
          rw [hs1]; exact h

theorem v2_preReportHook_sorted (c : V2.Ctx) (s : V2.State) (now : Nat)
    (h : V2.SortedQ s) : V2.SortedQ (V2.preReportHook c s now).1 :=
  v2_preReportLoop_sorted c now s.key_queue_length s h

/-- Claim C9: in both revisions, every engine operation preserves the
invariant that deadlines are non-decreasing from head to tail — `flushKey`
unconditionally, `enqueue` given that the clock is monotone (the new
deadline `now + time_limit` is no earlier than any queued deadline),
`flushQueue` and the timeout sweep unconditionally — and every single-entry
resolution removes exactly the head entry, shifting each remaining entry
(order and deadlines untouched) down by one position. -/
theorem c9_fifo_queue_invariants :
    (∀ (c : V1.Ctx) (s : V1.State) (r : Nat) (k : KeyswitchState),
      V1.SortedQ s → V1.SortedQ (V1.flushKey c s r k).1) ∧
    (∀ (c : V1.Ctx) (s : V1.State) (r : Nat) (k : KeyswitchState),
      (V1.flushKey c s r k).1.key_queue_length = s.key_queue_length - 1 ∧
      ∀ i, i < s.key_queue_length →
        (V1.flushKey c s r k).1.key_queue i = s.key_queue (i + 1)) ∧
    (∀ (c : V2.Ctx) (s : V2.State) (r : Bool) (k : KeyswitchState),
      V2.SortedQ s → V2.SortedQ (V2.flushKey c s r k).1) ∧
    (∀ (c : V2.Ctx) (s : V2.State) (r : Bool) (k : KeyswitchState),
      (V2.flushKey c s r k).1.key_queue_length = s.key_queue_length - 1 ∧
      ∀ i, i < s.key_queue_length →
        (V2.flushKey c s r k).1.key_queue i = s.key_queue (i + 1)) ∧
    (∀ (c : V1.Ctx) (s : V1.State) (a now : Nat), V1.SortedQ s →
      (∀ i, i < s.key_queue_length →
        (s.key_queue i).flush_time ≤ now + c.time_limit) →
      V1.SortedQ (V1.enqueue c s a now).1) ∧
    (∀ (c : V2.Ctx) (s : V2.State) (a now : Nat), V2.SortedQ s →
      (∀ i, i < s.key_queue_length →
        (s.key_queue i).flush_time ≤ now + c.time_limit) →
      V2.SortedQ (V2.enqueue c s a now).1) ∧
    (∀ (c : V1.Ctx) (s : V1.State) (index : Option Nat),
      V1.SortedQ s → V1.SortedQ (V1.flushQueue c s index).1) ∧
    (∀ (c : V2.Ctx) (s : V2.State) (index : Option Nat),
      V2.SortedQ s → V2.SortedQ (V2.flushQueue c s index).1) ∧
    (∀ (c : V1.Ctx) (s : V1.State) (now : Nat),
      V1.SortedQ s → V1.SortedQ (V1.preReportHook c s now).1) ∧
    (∀ (c : V2.Ctx) (s : V2.State) (now : Nat),
      V2.SortedQ s → V2.SortedQ (V2.preReportHook c s now).1) :=
  ⟨v1_flushKey_sorted,
   fun c s r k => ⟨v1_flushKey_fst_len c s r k,
     fun i hi => v1_flushKey_fst_queue c s r k i hi⟩,
   v2_flushKey_sorted,
   fun c s r k => ⟨v2_flushKey_fst_len c s r k,
     fun i hi => v2_flushKey_fst_queue c s r k i hi⟩,
   v1_enqueue_sorted, v2_enqueue_sorted, v1_flushQueue_sorted,
   v2_flushQueue_sorted, v1_preReportHook_sorted, v2_preReportHook_sorted⟩

theorem c9_fifo_queue_invariants_witness :
    V1.SortedQ (V1.flushKey exCtxV1 exStateV1
      V1.QUKEY_STATE_ALTERNATE pressedHeld).1 ∧
    V1.SortedQ (V1.enqueue exCtxV1 exStateV1 5 100).1 ∧
    V2.SortedQ (V2.preReportHook exSweepCtx exSweepState 20).1 :=
  ⟨c9_fifo_queue_invariants.1 exCtxV1 exStateV1
     V1.QUKEY_STATE_ALTERNATE pressedHeld (by decide),
   (c9_fifo_queue_invariants.2.2.2.2.1) exCtxV1 exStateV1 5 100
     (by decide) (by decide),
   (c9_fifo_queue_invariants.2.2.2.2.2.2.2.2.2) exSweepCtx exSweepState 20
     (by decide)⟩

/-- Claim C10 (refuted): the shift loop of `flushKey` reads slots `1`
through `len`; for every length below capacity each read stays within the
array, but at full capacity the final iteration reads slot
`QUKEYS_QUEUE_MAX` itself — one past the end of the
`key_queue_[QUKEYS_QUEUE_MAX]` array. -/
theorem c10_shift_loop_reads_one_past_end_at_full_capacity :
    (∀ len, len < QUKEYS_QUEUE_MAX →
      ∀ i ∈ shiftReadIndices len, i < QUKEYS_QUEUE_MAX) ∧
    QUKEYS_QUEUE_MAX ∈ shiftReadIndices QUKEYS_QUEUE_MAX ∧
    ¬ (∀ i ∈ shiftReadIndices QUKEYS_QUEUE_MAX, i < QUKEYS_QUEUE_MAX) := by
  decide
